import Mathlib

/-!
# mackerel-plugin-uwsgi-vassal: the metrics of one uWSGI vassal

A shallow embedding of `lib/uwsgi_vassal.go` (package `mpuwsgivassal`) and the
properties of `FetchMetrics`, `GraphDefinition` and `MetricKeyPrefix`.

* `float64` values are modelled exactly on the range the program reaches:
  non-negative integers that binary64 represents, and `+Inf`.  Conversions and
  additions round to nearest, ties to even, as the hardware does.
* `map[string]float64` is a finite partial function from keys to values.
* The world outside the package (`net.Dial`, `http.Get`, the stream that
  `json.Decoder` reads) is a parameter of `FetchMetrics`; the connections it
  opens and closes are recorded in a trace.
* The stream is read by the scanner of `encoding/json`, byte by byte, up to the
  end of its first JSON value; the members of the object found there are given
  by how they are bound to the fields of the Go struct.
-/

namespace mpuwsgivassal

/-! ## float64 -/

/-- Number of low binary digits that do not fit once `n` is written with 53
significant bits: `0` below `2 ^ 53`, otherwise the bit length of `n` minus 53.
The first argument bounds the number of halvings; `n` itself is always enough. -/
def excessBits : Nat → Nat → Nat
  | 0, _ => 0
  | fuel + 1, n => if n < 2 ^ 53 then 0 else excessBits fuel (n / 2) + 1

/-- Round a natural number to the nearest integer with at most 53 significant
bits, ties going to the even significand (IEEE 754 roundTiesToEven, exponent
range unbounded). -/
def roundNearestEven (n : Nat) : Nat :=
  let e := excessBits n n
  let q := n / 2 ^ e
  let r := n % 2 ^ e
  if 2 * r < 2 ^ e then q * 2 ^ e
  else if 2 ^ e < 2 * r then (q + 1) * 2 ^ e
  else if q % 2 = 0 then q * 2 ^ e
  else (q + 1) * 2 ^ e

/-- The float64 values this program can hold: a finite non-negative integer, or
positive infinity. -/
inductive Float64 where
  | fin (n : Nat)
  | inf
  deriving DecidableEq

namespace Float64

/-- First magnitude that no longer rounds to a finite binary64 value
(`2 ^ 1024`, written as a product of smaller powers). -/
def overflow : Nat := 2 ^ 256 * 2 ^ 256 * 2 ^ 256 * 2 ^ 256

/-- The binary64 value nearest to the exact non-negative integer `n`. -/
def round (n : Nat) : Float64 :=
  let m := roundNearestEven n
  if m < overflow then fin m else inf

/-- Conversion `float64(x)` of a `uint64`. -/
def ofUInt64 (x : Nat) : Float64 := round x

/-- Addition of two float64 values: the exact sum, rounded. -/
def add : Float64 → Float64 → Float64
  | fin a, fin b => round (a + b)
  | _, _ => inf

instance : Add Float64 := ⟨add⟩

/-- The constant `0.0`. -/
def zero : Float64 := fin 0

/-- The constant `1.0`, the step of `x++`. -/
def one : Float64 := fin 1

end Float64

/-! ## map[string]float64 -/

/-- A Go `map[string]float64`: each key is absent or bound to one value. -/
abbrev Stat := String → Option Float64

namespace Stat

/-- The map `make(map[string]float64)` returns. -/
def empty : Stat := fun _ => none

/-- Assignment `m[k] = v`. -/
def set (m : Stat) (k : String) (v : Float64) : Stat :=
  fun j => if j = k then some v else m j

/-- Read `m[k]`: the zero value when the key is absent. -/
def get (m : Stat) (k : String) : Float64 := (m k).getD Float64.zero

end Stat

/-! ## Data model -/

/-- UWSGIVassalPlugin mackerel plugin for uWSGI -/
structure UWSGIVassalPlugin where
  Socket : String
  Prefix : String
  LabelPrefix : String

/-- UWSGIWorker struct; `Requests` is a `uint64`. -/
structure UWSGIWorker where
  Requests : Nat
  Status : String
  deriving DecidableEq

/-- UWSGIStats struct for the JSON document; `ListenQueue` is a `uint64`. -/
structure UWSGIStats where
  ListenQueue : Nat
  Workers : List UWSGIWorker
  deriving DecidableEq

/-- Errors `FetchMetrics` can return. -/
inductive Error where
  /-- The value of `errors.New(msg)`. -/
  | errorsNew (msg : String)
  /-- An error of `net.Dial` or `http.Get`, or of reading the stream. -/
  | transport (code : Nat)
  /-- The stream is not one complete JSON value
  (`*json.SyntaxError`, `io.ErrUnexpectedEOF`, `io.EOF`). -/
  | syntaxError
  /-- A JSON value has no place in the Go value it is decoded into
  (`*json.UnmarshalTypeError`). -/
  | unmarshalType
  deriving DecidableEq

/-! ## The JSON document as `encoding/json` sees it

`json.Decoder` belongs to the Go standard library.  Its `Decode` is modelled on
the parsed value, following the package documentation of `Unmarshal`: a JSON
object fills the fields its members are bound to and ignores the other members;
`null` leaves a struct, an integer or a string untouched and sets a slice to nil;
a value of any other kind than the target expects is an `UnmarshalTypeError`,
as is a number that is not an unsigned integer below `2 ^ 64`.  The model covers
the documents in which at most one member of an object is bound to each field.
-/

/-- One JSON value.  `Obj` and `Arr` are what the decoder keeps of an object and
of an array at this place of the document; where the target of the decoding is a
scalar they are `Unit`, the content being skipped.  A number literal made of
digits only is `nat`; every other number literal (sign, fraction, exponent) is
`number`. -/
inductive JSON (Obj Arr : Type) where
  | null
  | bool (b : Bool)
  | nat (n : Nat)
  | number
  | str (s : String)
  | arr (a : Arr)
  | obj (o : Obj)

/-- A JSON value decoded into a `uint64` or a `string` field. -/
abbrev Scalar := JSON Unit Unit

/-- The members of a JSON object decoded into a `UWSGIWorker`: for each field
the value of the member bound to it, if the object has one.  Members bound to no
field are ignored by the decoder and left out. -/
structure WorkerObject where
  requests : Option Scalar
  status : Option Scalar

/-- An element of the `workers` array. -/
abbrev WorkerJSON := JSON WorkerObject Unit

/-- The members of a JSON object decoded into a `UWSGIStats`. -/
structure StatsObject where
  listen_queue : Option Scalar
  workers : Option (JSON Unit (List WorkerJSON))

/-- What the decoder reads from the connection: a stream that fails to yield one
complete JSON value, or the first JSON value of the stream. -/
inductive Body where
  | broken (e : Error)
  | value (j : JSON StatsObject Unit)

/-- Decoding into a `uint64` field holding zero: `null` leaves it, a digit-only
literal below `2 ^ 64` sets it, anything else is a type error. -/
def decodeUInt64 : Scalar → Except Error Nat
  | .null => .ok 0
  | .nat n => if n < 2 ^ 64 then .ok n else .error .unmarshalType
  | _ => .error .unmarshalType

/-- Decoding into a `string` field holding the empty string. -/
def decodeString : Scalar → Except Error String
  | .null => .ok ""
  | .str s => .ok s
  | _ => .error .unmarshalType

/-- Decoding a member into a field: an absent member leaves the zero value. -/
def decodeMember {α : Type} (zero : α) (dec : Scalar → Except Error α) :
    Option Scalar → Except Error α
  | none => .ok zero
  | some v => dec v

/-- Decoding into a zero `UWSGIWorker`. -/
def decodeWorker : WorkerJSON → Except Error UWSGIWorker
  | .null => .ok ⟨0, ""⟩
  | .obj o =>
    match decodeMember 0 decodeUInt64 o.requests, decodeMember "" decodeString o.status with
    | .ok r, .ok s => .ok ⟨r, s⟩
    | .error e, _ => .error e
    | _, .error e => .error e
  | _ => .error .unmarshalType

/-- Decoding the elements of an array into a fresh slice, in order. -/
def decodeElements : List WorkerJSON → Except Error (List UWSGIWorker)
  | [] => .ok []
  | x :: xs =>
    match decodeWorker x, decodeElements xs with
    | .ok w, .ok ws => .ok (w :: ws)
    | .error e, _ => .error e
    | _, .error e => .error e

/-- Decoding into the nil `[]UWSGIWorker` field. -/
def decodeWorkers : Option (JSON Unit (List WorkerJSON)) → Except Error (List UWSGIWorker)
  | none => .ok []
  | some .null => .ok []
  | some (.arr xs) => decodeElements xs
  | some _ => .error .unmarshalType

/-- The call `decoder.Decode(&uwsgiStats)` on the zero value declared by
`var uwsgiStats UWSGIStats`. -/
def Decode : Body → Except Error UWSGIStats
  | .broken e => .error e
  | .value .null => .ok ⟨0, []⟩
  | .value (.obj o) =>
    match decodeMember 0 decodeUInt64 o.listen_queue, decodeWorkers o.workers with
    | .ok q, .ok ws => .ok ⟨q, ws⟩
    | .error e, _ => .error e
    | _, .error e => .error e
  | .value _ => .error .unmarshalType

/-! ## The outside world -/

/-- The two library calls that open a connection. -/
structure World where
  /-- The call `net.Dial(network, address)`: an error, or a connection and what
  its stream holds. -/
  Dial : String → String → Except Error Body
  /-- The call `http.Get(url)`: an error, or a response and what its body holds. -/
  Get : String → Except Error Body

/-- A connection opened or closed by `FetchMetrics`. -/
inductive Event where
  | dial (network address : String)
  | get (url : String)
  | close
  deriving DecidableEq

/-- What a call of `FetchMetrics` leaves: the pair it returns and the
connections it touched, in order. -/
structure Outcome where
  stat : Option Stat
  err : Option Error
  trace : List Event

/-! ## strings -/

/-- The function `strings.HasPrefix`. -/
def HasPrefix (s pre : String) : Bool := pre.toList.isPrefixOf s.toList

/-- The function `strings.TrimPrefix`. -/
def TrimPrefix (s pre : String) : String :=
  if HasPrefix s pre then String.mk (s.toList.drop pre.length) else s

/-! ## FetchMetrics -/

/-- The message of the configuration error. -/
def socketErrorMessage : String :=
  "'--socket' is neither http endpoint nor the unix domain socket, try '--help' for more information"

/-- One turn of the loop over `uwsgiStats.Workers` (lines 167 to 171). -/
def countWorker (stat : Stat) (worker : UWSGIWorker) : Stat :=
  let stat :=
    if worker.Status = "idle" ∨ worker.Status = "busy" ∨ worker.Status = "cheap" ∨
        worker.Status = "pause" then
      stat.set worker.Status (stat.get worker.Status + Float64.one)
    else stat
  stat.set "requests" (stat.get "requests" + Float64.ofUInt64 worker.Requests)

/-- Lines 161 to 174: decode the stream, then fill the map. -/
def decodeAndCount (stat : Stat) (body : Body) : Option Stat × Option Error :=
  match Decode body with
  | .error err => (none, some err)
  | .ok uwsgiStats =>
    let stat := stat.set "queue" (Float64.ofUInt64 uwsgiStats.ListenQueue)
    (some (uwsgiStats.Workers.foldl countWorker stat), none)

/-- FetchMetrics interface for mackerelplugin. -/
def FetchMetrics (w : World) (p : UWSGIVassalPlugin) : Outcome :=
  let stat := Stat.empty
  let stat := stat.set "busy" Float64.zero
  let stat := stat.set "idle" Float64.zero
  let stat := stat.set "cheap" Float64.zero
  let stat := stat.set "pause" Float64.zero
  let stat := stat.set "requests" Float64.zero
  if HasPrefix p.Socket "unix://" then
    let address := TrimPrefix p.Socket "unix://"
    match w.Dial "unix" address with
    | .error err => ⟨none, some err, [.dial "unix" address]⟩
    | .ok conn =>
      let r := decodeAndCount stat conn
      ⟨r.1, r.2, [.dial "unix" address, .close]⟩
  else if HasPrefix p.Socket "http://" then
    match w.Get p.Socket with
    | .error err => ⟨none, some err, [.get p.Socket]⟩
    | .ok resp =>
      let r := decodeAndCount stat resp
      ⟨r.1, r.2, [.get p.Socket, .close]⟩
  else
    ⟨none, some (.errorsNew socketErrorMessage), []⟩

/-! ## GraphDefinition and MetricKeyPrefix -/

/-- The type `mp.Metrics` of go-mackerel-plugin, with the fields the literals of
this package set; a field a literal leaves out is false. -/
structure Metrics where
  Name : String
  Label : String
  Diff : Bool := false
  Stacked : Bool := false
  deriving DecidableEq

/-- The type `mp.Graphs` of go-mackerel-plugin. -/
structure Graphs where
  Label : String
  Unit : String
  Metrics : List Metrics
  deriving DecidableEq

/-- GraphDefinition interface for mackerelplugin.  The returned map is given by
its entries, in the order of the literal; `Title` stands for `strings.Title`. -/
def GraphDefinition (Title : String → String) (p : UWSGIVassalPlugin) :
    List (String × Graphs) :=
  let labelPrefix := Title p.Prefix
  [ (p.Prefix ++ ".queue",
      { Label := labelPrefix ++ " Queue"
        Unit := "integer"
        Metrics := [{ Name := "queue", Label := "Requests", Diff := false }] }),
    (p.Prefix ++ ".workers",
      { Label := labelPrefix ++ " Workers"
        Unit := "integer"
        Metrics :=
          [ { Name := "busy", Label := "Busy", Diff := false, Stacked := true },
            { Name := "idle", Label := "Idle", Diff := false, Stacked := true },
            { Name := "cheap", Label := "Cheap", Diff := false, Stacked := true },
            { Name := "pause", Label := "Pause", Diff := false, Stacked := true } ] }),
    (p.Prefix ++ ".req",
      { Label := labelPrefix ++ " Requests"
        Unit := "float"
        Metrics := [{ Name := "requests", Label := "Requests", Diff := true }] }) ]

/-- MetricKeyPrefix interface for PluginWithPrefix. -/
def MetricKeyPrefix (p : UWSGIVassalPlugin) : String :=
  if p.Prefix = "" then "uWSGI" else p.Prefix

/-! ## Vocabulary of the statements -/

/-- The six keys of a snapshot. -/
def snapshotKeys : List String := ["queue", "busy", "idle", "cheap", "pause", "requests"]

/-- The transport of plugin `p` succeeds in world `w` and hands over `body`:
either the socket is a `unix://` path and the dial succeeds, or it is an
`http://` URL and the request succeeds. -/
def Delivers (w : World) (p : UWSGIVassalPlugin) (body : Body) : Prop :=
  (HasPrefix p.Socket "unix://" = true ∧
      w.Dial "unix" (TrimPrefix p.Socket "unix://") = .ok body) ∨
  (HasPrefix p.Socket "unix://" = false ∧ HasPrefix p.Socket "http://" = true ∧
      w.Get p.Socket = .ok body)

/-- Number of workers whose status is exactly `t`. -/
def workersWithStatus (t : String) (ws : List UWSGIWorker) : Nat :=
  ws.countP (fun w => w.Status = t)

/-- Exact sum of the `requests` fields. -/
def totalRequests (ws : List UWSGIWorker) : Nat :=
  (ws.map (fun w => w.Requests)).sum

/-- The running float64 total of line 171: each `requests` field converted, then
added, in the order of the workers. -/
def accumulatedRequests (ws : List UWSGIWorker) : Float64 :=
  ws.foldl (fun acc w => acc + Float64.ofUInt64 w.Requests) Float64.zero

/-- The snapshot of a decoded document in closed form: `queue` is the converted
`listen_queue`, `requests` the running total, and each of the four counters has
been stepped once per worker of that status (a float64 counter stays at
`2 ^ 53` once it is there). -/
def snapshotOf (s : UWSGIStats) : Stat := fun k =>
  if k = "queue" then some (Float64.ofUInt64 s.ListenQueue)
  else if k = "requests" then some (accumulatedRequests s.Workers)
  else if k = "idle" ∨ k = "busy" ∨ k = "cheap" ∨ k = "pause" then
    some (.fin (min (workersWithStatus k s.Workers) (2 ^ 53)))
  else none

/-- A world in which every dial and every request is answered with `body`. -/
def worldServing (body : Body) : World :=
  { Dial := fun _ _ => .ok body, Get := fun _ => .ok body }

/-- A plugin reading the given socket, with the default prefix. -/
def pluginOn (socket : String) : UWSGIVassalPlugin :=
  { Socket := socket, Prefix := "uWSGI", LabelPrefix := "UWSGI" }

/-- The document whose top-level value is an object with the given
`listen_queue` and the given workers, each an object with `requests` and
`status`. -/
def document (queue : Nat) (workers : List (Nat × String)) : Body :=
  .value (.obj
    { listen_queue := some (.nat queue)
      workers := some (.arr (workers.map fun w =>
        .obj { requests := some (.nat w.1), status := some (.str w.2) })) })

/-- The first example document of the specification. -/
def sampleDocument : Body := document 2 [(10, "idle"), (5, "busy"), (0, "unknown")]

/-- The value `sampleDocument` decodes to. -/
def sampleStats : UWSGIStats := ⟨2, [⟨10, "idle"⟩, ⟨5, "busy"⟩, ⟨0, "unknown"⟩]⟩

/-- The second example document of the specification. -/
def emptyDocument : Body := document 0 []

/-- A plugin on a unix socket. -/
def unixPlugin : UWSGIVassalPlugin := pluginOn "unix:///run/uwsgi.sock"

/-- A plugin on an HTTP endpoint. -/
def httpPlugin : UWSGIVassalPlugin := pluginOn "http://127.0.0.1:9191/"

/-! ## The byte stream as `json.Decoder` reads it

`Decoder.Decode` first runs the scanner of `encoding/json` (`scanner.go`) over
the stream until one JSON value is complete (`Decoder.readValue`), then decodes
the bytes of that value.  The scanner is the state machine below, one function
per state as in the library; the stream is a list of characters (valid UTF-8:
inside a string every byte of a character is accepted, elsewhere its first byte
is rejected, so the scanner treats the character as it treats its bytes).
What follows the first complete value is never read.
-/

/-- The states of the scanner: the functions the field `step` can hold. -/
inductive ScanStep where
  | stateBeginValueOrEmpty
  | stateBeginValue
  | stateBeginStringOrEmpty
  | stateBeginString
  | stateEndValue
  | stateEndTop
  | stateInString
  | stateInStringEsc
  | stateInStringEscU
  | stateInStringEscU1
  | stateInStringEscU12
  | stateInStringEscU123
  | stateNeg
  | state1
  | state0
  | stateDot
  | stateDot0
  | stateE
  | stateESign
  | stateE0
  | stateT
  | stateTr
  | stateTru
  | stateF
  | stateFa
  | stateFal
  | stateFals
  | stateN
  | stateNu
  | stateNul
  | stateError
  deriving DecidableEq

/-- What the scanner is in the middle of: an entry of its `parseState` stack. -/
inductive ParseState where
  | parseObjectKey
  | parseObjectValue
  | parseArrayValue
  deriving DecidableEq

/-- The codes a scanner step returns. -/
inductive ScanOp where
  | scanContinue
  | scanBeginLiteral
  | scanBeginObject
  | scanObjectKey
  | scanObjectValue
  | scanEndObject
  | scanBeginArray
  | scanArrayValue
  | scanEndArray
  | scanSkipSpace
  | scanEnd
  | scanError
  deriving DecidableEq

/-- The scanner: its next step and its stack, innermost entry first. -/
structure Scanner where
  step : ScanStep
  parseState : List ParseState
  deriving DecidableEq

/-- The nesting depth beyond which the scanner gives up. -/
def maxNestingDepth : Nat := 10000

/-- The function `isSpace`: space, tab, carriage return, line feed. -/
def isSpace (c : Char) : Bool :=
  c = ' ' || c = Char.ofNat 9 || c = Char.ofNat 13 || c = Char.ofNat 10

/-- The test `'0' <= c && c <= '9'`. -/
def isDigit (c : Char) : Bool := 48 ≤ c.toNat && c.toNat ≤ 57

/-- The test for a hexadecimal digit of a `\u` escape. -/
def isHex (c : Char) : Bool :=
  isDigit c || (97 ≤ c.toNat && c.toNat ≤ 102) || (65 ≤ c.toNat && c.toNat ≤ 70)

namespace Scanner

/-- The scanner after `reset`. -/
def reset : Scanner := ⟨.stateBeginValue, []⟩

/-- The method `error`: the scanner stops in `stateError`. -/
def error (s : Scanner) : Scanner × ScanOp := (⟨.stateError, s.parseState⟩, .scanError)

/-- The scanner with its field `step` set. -/
def goto (s : Scanner) (step : ScanStep) : Scanner := ⟨step, s.parseState⟩

/-- The method `pushParseState`. -/
def pushParseState (s : Scanner) (newParseState : ParseState) (successState : ScanOp) :
    Scanner × ScanOp :=
  if (newParseState :: s.parseState).length ≤ maxNestingDepth then
    (⟨s.step, newParseState :: s.parseState⟩, successState)
  else error ⟨s.step, newParseState :: s.parseState⟩

/-- The method `popParseState`. -/
def popParseState (s : Scanner) : Scanner :=
  match s.parseState.tail with
  | [] => ⟨.stateEndTop, []⟩
  | rest => ⟨.stateEndValue, rest⟩

/-- The state after finishing the top-level value: the value has ended before
this byte, which is complained about on the next call if it is not a space. -/
def stateEndTop (s : Scanner) (c : Char) : Scanner × ScanOp :=
  if isSpace c then (s, .scanEnd) else (s.error.1, .scanEnd)

/-- The state after completing a value, such as after reading `{}` or `true`. -/
def stateEndValue (s : Scanner) (c : Char) : Scanner × ScanOp :=
  match s.parseState with
  | [] => stateEndTop (s.goto .stateEndTop) c
  | ps :: rest =>
    if isSpace c then (s.goto .stateEndValue, .scanSkipSpace)
    else
      match ps with
      | .parseObjectKey =>
        if c = ':' then (⟨.stateBeginValue, .parseObjectValue :: rest⟩, .scanObjectKey)
        else s.error
      | .parseObjectValue =>
        if c = ',' then (⟨.stateBeginString, .parseObjectKey :: rest⟩, .scanObjectValue)
        else if c = '}' then (s.popParseState, .scanEndObject)
        else s.error
      | .parseArrayValue =>
        if c = ',' then (s.goto .stateBeginValue, .scanArrayValue)
        else if c = ']' then (s.popParseState, .scanEndArray)
        else s.error

/-- The state at the beginning of the input and of every value. -/
def stateBeginValue (s : Scanner) (c : Char) : Scanner × ScanOp :=
  if isSpace c then (s, .scanSkipSpace)
  else if c = '{' then
    (s.goto .stateBeginStringOrEmpty).pushParseState .parseObjectKey .scanBeginObject
  else if c = '[' then
    (s.goto .stateBeginValueOrEmpty).pushParseState .parseArrayValue .scanBeginArray
  else if c = Char.ofNat 34 then (s.goto .stateInString, .scanBeginLiteral)
  else if c = '-' then (s.goto .stateNeg, .scanBeginLiteral)
  else if c = '0' then (s.goto .state0, .scanBeginLiteral)
  else if c = 't' then (s.goto .stateT, .scanBeginLiteral)
  else if c = 'f' then (s.goto .stateF, .scanBeginLiteral)
  else if c = 'n' then (s.goto .stateN, .scanBeginLiteral)
  else if isDigit c then (s.goto .state1, .scanBeginLiteral)
  else s.error

/-- The state after reading `[`. -/
def stateBeginValueOrEmpty (s : Scanner) (c : Char) : Scanner × ScanOp :=
  if isSpace c then (s, .scanSkipSpace)
  else if c = ']' then stateEndValue s c
  else stateBeginValue s c

/-- The state after reading an object key, a value and a comma. -/
def stateBeginString (s : Scanner) (c : Char) : Scanner × ScanOp :=
  if isSpace c then (s, .scanSkipSpace)
  else if c = Char.ofNat 34 then (s.goto .stateInString, .scanBeginLiteral)
  else s.error

/-- The state after reading `{`. -/
def stateBeginStringOrEmpty (s : Scanner) (c : Char) : Scanner × ScanOp :=
  if isSpace c then (s, .scanSkipSpace)
  else if c = '}' then stateEndValue ⟨s.step, .parseObjectValue :: s.parseState.tail⟩ c
  else stateBeginString s c

/-- The state after reading the opening quote of a string. -/
def stateInString (s : Scanner) (c : Char) : Scanner × ScanOp :=
  if c = Char.ofNat 34 then (s.goto .stateEndValue, .scanContinue)
  else if c = Char.ofNat 92 then (s.goto .stateInStringEsc, .scanContinue)
  else if c.toNat < 32 then s.error
  else (s, .scanContinue)

/-- The state after reading a backslash in a string. -/
def stateInStringEsc (s : Scanner) (c : Char) : Scanner × ScanOp :=
  if c = 'b' ∨ c = 'f' ∨ c = 'n' ∨ c = 'r' ∨ c = 't' ∨ c = Char.ofNat 92 ∨ c = '/' ∨
      c = Char.ofNat 34 then
    (s.goto .stateInString, .scanContinue)
  else if c = 'u' then (s.goto .stateInStringEscU, .scanContinue)
  else s.error

/-- A state that accepts the bytes passing `ok`, moving to `next`. -/
def expect (s : Scanner) (ok : Bool) (next : ScanStep) : Scanner × ScanOp :=
  if ok then (s.goto next, .scanContinue) else s.error

/-- The state after reading `0` during a number. -/
def state0 (s : Scanner) (c : Char) : Scanner × ScanOp :=
  if c = '.' then (s.goto .stateDot, .scanContinue)
  else if c = 'e' ∨ c = 'E' then (s.goto .stateE, .scanContinue)
  else stateEndValue s c

/-- The state after reading a non-zero integer during a number. -/
def state1 (s : Scanner) (c : Char) : Scanner × ScanOp :=
  if isDigit c then (s.goto .state1, .scanContinue) else state0 s c

/-- The state after reading the integer, the decimal point and digits. -/
def stateDot0 (s : Scanner) (c : Char) : Scanner × ScanOp :=
  if isDigit c then (s, .scanContinue)
  else if c = 'e' ∨ c = 'E' then (s.goto .stateE, .scanContinue)
  else stateEndValue s c

/-- The state after reading the mantissa, `e` and the sign of the exponent. -/
def stateESign (s : Scanner) (c : Char) : Scanner × ScanOp :=
  expect s (isDigit c) .stateE0

/-- The state after reading the mantissa and `e`. -/
def stateE (s : Scanner) (c : Char) : Scanner × ScanOp :=
  if c = '+' ∨ c = '-' then (s.goto .stateESign, .scanContinue) else stateESign s c

/-- The state after reading at least one digit of the exponent. -/
def stateE0 (s : Scanner) (c : Char) : Scanner × ScanOp :=
  if isDigit c then (s, .scanContinue) else stateEndValue s c

/-- The state after reading `-` during a number. -/
def stateNeg (s : Scanner) (c : Char) : Scanner × ScanOp :=
  if c = '0' then (s.goto .state0, .scanContinue)
  else if isDigit c then (s.goto .state1, .scanContinue)
  else s.error

/-- One step of the scanner on the byte `c`: the call `s.step(s, c)`. -/
def next (s : Scanner) (c : Char) : Scanner × ScanOp :=
  match s.step with
  | .stateBeginValueOrEmpty => stateBeginValueOrEmpty s c
  | .stateBeginValue => stateBeginValue s c
  | .stateBeginStringOrEmpty => stateBeginStringOrEmpty s c
  | .stateBeginString => stateBeginString s c
  | .stateEndValue => stateEndValue s c
  | .stateEndTop => stateEndTop s c
  | .stateInString => stateInString s c
  | .stateInStringEsc => stateInStringEsc s c
  | .stateInStringEscU => expect s (isHex c) .stateInStringEscU1
  | .stateInStringEscU1 => expect s (isHex c) .stateInStringEscU12
  | .stateInStringEscU12 => expect s (isHex c) .stateInStringEscU123
  | .stateInStringEscU123 => expect s (isHex c) .stateInString
  | .stateNeg => stateNeg s c
  | .state1 => state1 s c
  | .state0 => state0 s c
  | .stateDot => expect s (isDigit c) .stateDot0
  | .stateDot0 => stateDot0 s c
  | .stateE => stateE s c
  | .stateESign => stateESign s c
  | .stateE0 => stateE0 s c
  | .stateT => expect s (c = 'r') .stateTr
  | .stateTr => expect s (c = 'u') .stateTru
  | .stateTru => expect s (c = 'e') .stateEndValue
  | .stateF => expect s (c = 'a') .stateFa
  | .stateFa => expect s (c = 'l') .stateFal
  | .stateFal => expect s (c = 's') .stateFals
  | .stateFals => expect s (c = 'e') .stateEndValue
  | .stateN => expect s (c = 'u') .stateNu
  | .stateNu => expect s (c = 'l') .stateNul
  | .stateNul => expect s (c = 'l') .stateEndValue
  | .stateError => (s, .scanError)

end Scanner

/-- The loop of `Decoder.readValue` from scanner state `s`: the number of bytes
up to the end of the first value, or the error.  A value closed by a bracket
ends with that byte; any other value ends before the byte that follows it, or at
the end of the stream.  A stream that ends earlier is `io.EOF` or
`io.ErrUnexpectedEOF`, an invalid byte a `*json.SyntaxError`. -/
def readLoop (s : Scanner) : List Char → Except Error Nat
  | [] => if (s.next ' ').2 = .scanEnd then .ok 0 else .error .syntaxError
  | c :: cs =>
    match s.next c with
    | (_, .scanEnd) => .ok 0
    | (_, .scanError) => .error .syntaxError
    | (s, .scanEndObject) | (s, .scanEndArray) =>
      if (Scanner.stateEndValue s ' ').2 = .scanEnd then .ok 1
      else (readLoop (Scanner.stateEndValue s ' ').1 cs).map (· + 1)
    | (s, _) => (readLoop s cs).map (· + 1)

/-- The method `Decoder.readValue` on a fresh decoder. -/
def readValue (stream : List Char) : Except Error Nat := readLoop Scanner.reset stream

/-- The number a literal of digits denotes. -/
def digitsValue (cs : List Char) : Nat := cs.foldl (fun n c => 10 * n + (c.toNat - 48)) 0

/-- The top-level JSON value that the bytes `value` hold, told by their first
byte as `decodeState.value` and `literalStore` do.  `members` says how the
members of a top-level object are bound to the fields of `UWSGIStats`; a string
is kept as written between its quotes. -/
def topLevelValue (value : List Char) (members : StatsObject) : JSON StatsObject Unit :=
  match value.dropWhile isSpace with
  | [] => .number
  | c :: cs =>
    if c = '{' then .obj members
    else if c = '[' then .arr ()
    else if c = Char.ofNat 34 then .str (String.mk cs.dropLast)
    else if c = 't' then .bool true
    else if c = 'f' then .bool false
    else if c = 'n' then .null
    else if (c :: cs).all isDigit then .nat (digitsValue (c :: cs))
    else .number

/-- The body a stream of bytes is to the decoder. -/
def Body.ofStream (stream : List Char) (members : StatsObject) : Body :=
  match readValue stream with
  | .error e => .broken e
  | .ok n => .value (topLevelValue (stream.take n) members)

/-- The scanner is inside a number (one of the eight states of a number). -/
def inNumber (step : ScanStep) : Bool :=
  step = .stateNeg || step = .state1 || step = .state0 || step = .stateDot ||
    step = .stateDot0 || step = .stateE || step = .stateESign || step = .stateE0

/-- The first byte after the leading spaces is a minus sign or a digit. -/
def startsNumber (stream : List Char) : Prop :=
  ∃ c cs, stream.dropWhile isSpace = c :: cs ∧ (c = '-' ∨ isDigit c = true)

/-- What the bytes `pre` read so far say about a scanner that is not inside an
object or an array: at the beginning of the value only spaces have been read,
and inside a number the first byte after the spaces began that number.  The
state after `[` is never at the top level. -/
def TopLevel (s : Scanner) (pre : List Char) : Prop :=
  (s.parseState = [] → s.step = .stateBeginValue → pre.dropWhile isSpace = []) ∧
    (s.step = .stateBeginValueOrEmpty → s.parseState ≠ []) ∧
    (s.parseState = [] → inNumber s.step = true → startsNumber pre)

/-- The text of the second example document followed by the start of an HTML
page: 31 bytes of JSON, then 6 bytes that are not JSON. -/
def trailingStream : List Char :=
  "\x7b\x22listen_queue\x22:0,\x22workers\x22:[]\x7d<html>".toList

/-- How the members of the object of `trailingStream` are bound to the fields. -/
def trailingMembers : StatsObject := ⟨some (.nat 0), some (.arr [])⟩

/-- The text of the first example document. -/
def sampleStream : List Char :=
  ("\x7b\x22listen_queue\x22:2,\x22workers\x22:[" ++
    "\x7b\x22requests\x22:10,\x22status\x22:\x22idle\x22\x7d," ++
    "\x7b\x22requests\x22:5,\x22status\x22:\x22busy\x22\x7d," ++
    "\x7b\x22requests\x22:0,\x22status\x22:\x22unknown\x22\x7d]\x7d").toList

/-- The first 50 bytes of `sampleStream`: the stream breaks off inside the first
worker. -/
def truncatedStream : List Char := sampleStream.take 50

/-! ## The document of the source comment -/

/-- The scanner after the bytes of a piece of the stream, when none of them ends
the value or is rejected. -/
def scanPrefix (s : Scanner) : List Char → Option Scanner
  | [] => some s
  | c :: cs =>
    match s.next c with
    | (_, .scanEnd) => none
    | (_, .scanError) => none
    | (s, .scanEndObject) | (s, .scanEndArray) =>
      if (Scanner.stateEndValue s ' ').2 = .scanEnd then none
      else scanPrefix (Scanner.stateEndValue s ' ').1 cs
    | (s, _) => scanPrefix s cs

/-- Lines 21 to 28 of the source, without the comment marker. -/
def commentLines1 : List Char :=
  ("\x7b\n" ++
    "  \x22version\x22:\x222.0.7-debian\x22,\n" ++
    "  \x22listen_queue\x22:0,\n" ++
    "  \x22listen_queue_errors\x22:0,\n" ++
    "  \x22signal_queue\x22:0,\n" ++
    "  \x22load\x22:0,\n" ++
    "  \x22pid\x22:77393,\n" ++
    "  \x22uid\x22:0,\n").toList

/-- Lines 29 to 36 of the source, without the comment marker. -/
def commentLines2 : List Char :=
  ("  \x22gid\x22:0,\n" ++
    "  \x22cwd\x22:\x22/etc/uwsgi/vassals\x22,\n" ++
    "  \x22workers\x22: [\x7b\n" ++
    "    \x22id\x22: 1,\n" ++
    "    \x22pid\x22: 31759,\n" ++
    "    \x22requests\x22: 0,\n" ++
    "    \x22exceptions\x22: 0,\n" ++
    "    \x22status\x22: \x22idle\x22,\n").toList

/-- Lines 37 to 44 of the source, without the comment marker. -/
def commentLines3 : List Char :=
  ("    \x22rss\x22: 0,\n" ++
    "    \x22vsz\x22: 0,\n" ++
    "    \x22running_time\x22: 0,\n" ++
    "    \x22last_spawn\x22: 1317235041,\n" ++
    "    \x22respawn_count\x22: 1,\n" ++
    "    \x22tx\x22: 0,\n" ++
    "    \x22avg_rt\x22: 0,\n" ++
    "    \x22apps\x22: [\x7b\n").toList

/-- Lines 45 to 52 of the source, without the comment marker. -/
def commentLines4 : List Char :=
  ("      \x22id\x22: 0,\n" ++
    "      \x22modifier1\x22: 0,\n" ++
    "      \x22mountpoint\x22: \x22\x22,\n" ++
    "      \x22requests\x22: 0,\n" ++
    "      \x22exceptions\x22: 0,\n" ++
    "      \x22chdir\x22: \x22\x22\n" ++
    "    \x7d]\n" ++
    "  \x7d, \x7b\n").toList

/-- Lines 53 to 60 of the source, without the comment marker. -/
def commentLines5 : List Char :=
  ("    \x22id\x22: 2,\n" ++
    "    \x22pid\x22: 31760,\n" ++
    "    \x22requests\x22: 0,\n" ++
    "    \x22exceptions\x22: 0,\n" ++
    "    \x22status\x22: \x22idle\x22,\n" ++
    "    \x22rss\x22: 0,\n" ++
    "    \x22vsz\x22: 0,\n" ++
    "    \x22running_time\x22: 0,\n").toList

/-- Lines 61 to 68 of the source, without the comment marker. -/
def commentLines6 : List Char :=
  ("    \x22last_spawn\x22: 1317235041,\n" ++
    "    \x22respawn_count\x22: 1,\n" ++
    "    \x22tx\x22: 0,\n" ++
    "    \x22avg_rt\x22: 0,\n" ++
    "    \x22apps\x22: [\x7b\n" ++
    "      \x22id\x22: 0,\n" ++
    "      \x22modifier1\x22: 0,\n" ++
    "      \x22mountpoint\x22: \x22\x22,\n").toList

/-- Lines 69 to 76 of the source, without the comment marker. -/
def commentLines7 : List Char :=
  ("      \x22requests\x22: 0,\n" ++
    "      \x22exceptions\x22: 0,\n" ++
    "      \x22chdir\x22: \x22\x22\n" ++
    "    \x7d]\n" ++
    "  \x7d, \x7b\n" ++
    "    \x22id\x22: 3,\n" ++
    "    \x22pid\x22: 31761,\n" ++
    "    \x22requests\x22: 0,\n").toList

/-- Lines 77 to 84 of the source, without the comment marker. -/
def commentLines8 : List Char :=
  ("    \x22exceptions\x22: 0,\n" ++
    "    \x22status\x22: \x22idle\x22,\n" ++
    "    \x22rss\x22: 0,\n" ++
    "    \x22vsz\x22: 0,\n" ++
    "    \x22running_time\x22: 0,\n" ++
    "    \x22last_spawn\x22: 1317235041,\n" ++
    "    \x22respawn_count\x22: 1,\n" ++
    "    \x22tx\x22: 0,\n").toList

/-- Lines 85 to 92 of the source, without the comment marker. -/
def commentLines9 : List Char :=
  ("    \x22avg_rt\x22: 0,\n" ++
    "    \x22apps\x22: [\x7b\n" ++
    "      \x22id\x22: 0,\n" ++
    "      \x22modifier1\x22: 0,\n" ++
    "      \x22mountpoint\x22: \x22\x22,\n" ++
    "      \x22requests\x22: 0,\n" ++
    "      \x22exceptions\x22: 0,\n" ++
    "      \x22chdir\x22: \x22\x22\n").toList

/-- Lines 93 to 100 of the source, without the comment marker. -/
def commentLines10 : List Char :=
  ("    \x7d]\n" ++
    "  \x7d, \x7b\n" ++
    "    \x22id\x22: 4,\n" ++
    "    \x22pid\x22: 31762,\n" ++
    "    \x22requests\x22: 0,\n" ++
    "    \x22exceptions\x22: 0,\n" ++
    "    \x22status\x22: \x22idle\x22,\n" ++
    "    \x22rss\x22: 0,\n").toList

/-- Lines 101 to 108 of the source, without the comment marker. -/
def commentLines11 : List Char :=
  ("    \x22vsz\x22: 0,\n" ++
    "    \x22running_time\x22: 0,\n" ++
    "    \x22last_spawn\x22: 1317235041,\n" ++
    "    \x22respawn_count\x22: 1,\n" ++
    "    \x22tx\x22: 0,\n" ++
    "    \x22avg_rt\x22: 0,\n" ++
    "    \x22apps\x22: [\x7b\n" ++
    "      \x22id\x22: 0,\n").toList

/-- Lines 109 to 116 of the source, without the comment marker. -/
def commentLines12 : List Char :=
  ("      \x22modifier1\x22: 0,\n" ++
    "      \x22mountpoint\x22: \x22\x22,\n" ++
    "      \x22requests\x22: 0,\n" ++
    "      \x22exceptions\x22: 0,\n" ++
    "      \x22chdir\x22: \x22\x22\n" ++
    "    \x7d]\n" ++
    "  \x7d\n" ++
    "\x7d").toList

/-- The text the comment at lines 21 to 116 of the source gives as the stats
document of uWSGI. -/
def commentStream : List Char :=
  commentLines1 ++ commentLines2 ++ commentLines3 ++ commentLines4 ++ commentLines5 ++
    commentLines6 ++ commentLines7 ++ commentLines8 ++ commentLines9 ++ commentLines10 ++
    commentLines11 ++ commentLines12

/-! ## float64: exactness below `2 ^ 53` -/

theorem excessBits_of_lt (fuel n : Nat) (h : n < 2 ^ 53) : excessBits fuel n = 0 := by
  cases fuel with
  | zero => rfl
  | succ f => rw [excessBits, if_pos h]

theorem roundNearestEven_of_lt (n : Nat) (h : n < 2 ^ 53) : roundNearestEven n = n := by
  simp [roundNearestEven, excessBits_of_lt _ _ h, Nat.mod_one]

theorem roundNearestEven_of_le (n : Nat) (h : n ≤ 2 ^ 53) : roundNearestEven n = n := by
  rcases Nat.lt_or_eq_of_le h with h | h
  · exact roundNearestEven_of_lt n h
  · subst h; decide

theorem Float64.round_of_le (n : Nat) (h : n ≤ 2 ^ 53) : Float64.round n = .fin n := by
  have h2 : n < Float64.overflow := lt_of_le_of_lt h (by decide)
  simp [Float64.round, roundNearestEven_of_le n h, h2]

theorem Float64.fin_add_fin (a b : Nat) : Float64.fin a + Float64.fin b = Float64.round (a + b) :=
  rfl

theorem Float64.add_of_le (a b : Nat) (h : a + b ≤ 2 ^ 53) :
    Float64.fin a + Float64.fin b = .fin (a + b) := by
  rw [Float64.fin_add_fin, Float64.round_of_le _ h]

/-- The step of `x++` from a finite count: exact below `2 ^ 53`, stuck at `2 ^ 53`. -/
theorem Float64.increment (c : Nat) (h : c ≤ 2 ^ 53) :
    Float64.fin c + Float64.one = .fin (min (c + 1) (2 ^ 53)) := by
  rcases Nat.lt_or_eq_of_le h with h | h
  · have h1 : c + 1 ≤ 2 ^ 53 := h
    rw [Float64.one, Float64.add_of_le _ _ h1, Nat.min_eq_left h1]
  · subst h; decide

theorem Float64.increment_iterate (n : Nat) :
    (fun x => x + Float64.one)^[n] (Float64.fin 0) = .fin (min n (2 ^ 53)) := by
  induction n with
  | zero => rfl
  | succ n ih =>
    rw [Function.iterate_succ_apply', ih, Float64.increment _ (Nat.min_le_right _ _)]
    congr 1
    omega

/-! ## float64: the rounding keeps 53 significant bits -/

/-- The fuel `n` is enough: after dropping `excessBits n n` low digits, what is
left has at most 53 bits, and exactly 53 when `n` has more than 53. -/
theorem excessBits_spec (fuel n : Nat) (hf : n ≤ fuel) :
    n / 2 ^ excessBits fuel n < 2 ^ 53 ∧
      (2 ^ 53 ≤ n → 2 ^ 52 ≤ n / 2 ^ excessBits fuel n) := by
  induction fuel generalizing n with
  | zero =>
    have h0 : n = 0 := Nat.le_zero.mp hf
    subst h0
    exact ⟨by decide, fun h => absurd h (by decide)⟩
  | succ f ih =>
    by_cases h : n < 2 ^ 53
    · rw [excessBits, if_pos h]
      exact ⟨by simpa using h, fun h2 => absurd h (Nat.not_lt.mpr h2)⟩
    · rw [excessBits, if_neg h, Nat.pow_succ, Nat.mul_comm, ← Nat.div_div_eq_div_mul]
      have hge : 2 ^ 53 ≤ n := Nat.le_of_not_lt h
      have hhalf : n / 2 ≤ f := by omega
      obtain ⟨h1, h2⟩ := ih (n / 2) hhalf
      refine ⟨h1, fun _ => ?_⟩
      by_cases h3 : 2 ^ 53 ≤ n / 2
      · exact h2 h3
      · rw [excessBits_of_lt f (n / 2) (Nat.lt_of_not_le h3)]
        simp only [pow_zero, Nat.div_one]
        omega

/-- Rounding moves a number by at most half a unit in the last place, and the
result is a multiple of that unit. -/
theorem roundNearestEven_spec (n : Nat) :
    2 ^ excessBits n n ∣ roundNearestEven n ∧
      2 * roundNearestEven n ≤ 2 * n + 2 ^ excessBits n n ∧
      2 * n ≤ 2 * roundNearestEven n + 2 ^ excessBits n n := by
  have hpos : 0 < 2 ^ excessBits n n := Nat.two_pow_pos _
  unfold roundNearestEven
  simp only []
  generalize 2 ^ excessBits n n = u at hpos ⊢
  have hdm := Nat.div_add_mod n u
  have hlt := Nat.mod_lt n hpos
  have hq : n / u * u = u * (n / u) := Nat.mul_comm _ _
  have hq1 : (n / u + 1) * u = u * (n / u) + u := by
    rw [Nat.add_mul, Nat.one_mul, Nat.mul_comm]
  have hd0 : u ∣ u * (n / u) := Dvd.intro _ rfl
  have hd1 : u ∣ u * (n / u) + u := Dvd.intro (n / u + 1) (by rw [Nat.mul_add, Nat.mul_one])
  rw [hq, hq1]
  generalize u * (n / u) = m at hdm hd0 hd1 ⊢
  split_ifs
  · exact ⟨hd0, by omega, by omega⟩
  · exact ⟨hd1, by omega, by omega⟩
  · exact ⟨hd0, by omega, by omega⟩
  · exact ⟨hd1, by omega, by omega⟩

/-! ## One turn of the loop -/

theorem countWorker_requests (m : Stat) (w : UWSGIWorker) :
    countWorker m w "requests" = some (m.get "requests" + Float64.ofUInt64 w.Requests) := by
  unfold countWorker
  by_cases h : w.Status = "idle" ∨ w.Status = "busy" ∨ w.Status = "cheap" ∨ w.Status = "pause"
  · have hne : "requests" ≠ w.Status := by
      rcases h with h | h | h | h <;> rw [h] <;> decide
    simp [h, Stat.set, Stat.get, hne]
  · simp [h, Stat.set]

theorem countWorker_counter (m : Stat) (w : UWSGIWorker) (t : String)
    (ht : t = "idle" ∨ t = "busy" ∨ t = "cheap" ∨ t = "pause") :
    countWorker m w t = if w.Status = t then some (m.get t + Float64.one) else m t := by
  have hne : t ≠ "requests" := by
    rcases ht with h | h | h | h <;> rw [h] <;> decide
  unfold countWorker
  by_cases h : w.Status = "idle" ∨ w.Status = "busy" ∨ w.Status = "cheap" ∨ w.Status = "pause"
  · by_cases hs : w.Status = t
    · subst hs
      simp [h, Stat.set, hne]
    · have hs2 : ¬ t = w.Status := fun e => hs e.symm
      simp [h, Stat.set, hne, hs, hs2]
  · have hs : ¬ w.Status = t := fun e => h (e ▸ ht)
    simp [h, Stat.set, hne, hs]

theorem countWorker_other (m : Stat) (w : UWSGIWorker) (k : String)
    (hk : ¬ (k = "idle" ∨ k = "busy" ∨ k = "cheap" ∨ k = "pause")) (hr : k ≠ "requests") :
    countWorker m w k = m k := by
  unfold countWorker
  by_cases h : w.Status = "idle" ∨ w.Status = "busy" ∨ w.Status = "cheap" ∨ w.Status = "pause"
  · have hs : ¬ k = w.Status := fun e => hk (e ▸ h)
    simp [h, Stat.set, hr, hs]
  · simp [h, Stat.set, hr]

/-! ## The whole loop -/

/-- The running total of the loop: each `requests` converted, then added. -/
theorem foldl_requests (ws : List UWSGIWorker) (m : Stat) (r : Float64)
    (hm : m "requests" = some r) :
    ws.foldl countWorker m "requests" =
      some (ws.foldl (fun acc w => acc + Float64.ofUInt64 w.Requests) r) := by
  induction ws generalizing m r with
  | nil => simpa using hm
  | cons w ws ih =>
    rw [List.foldl_cons, List.foldl_cons]
    apply ih
    rw [countWorker_requests]
    simp [Stat.get, hm]

theorem foldl_counter (ws : List UWSGIWorker) (m : Stat) (t : String) (c : Float64)
    (ht : t = "idle" ∨ t = "busy" ∨ t = "cheap" ∨ t = "pause") (hm : m t = some c) :
    ws.foldl countWorker m t =
      some ((fun x => x + Float64.one)^[workersWithStatus t ws] c) := by
  induction ws generalizing m c with
  | nil => simpa [workersWithStatus] using hm
  | cons w ws ih =>
    rw [List.foldl_cons]
    by_cases hs : w.Status = t
    · have h1 : countWorker m w t = some (c + Float64.one) := by
        rw [countWorker_counter m w t ht, if_pos hs]
        simp [Stat.get, hm]
      rw [ih _ _ h1]
      simp [workersWithStatus, List.countP_cons, hs, Function.iterate_succ_apply]
    · have h1 : countWorker m w t = some c := by
        rw [countWorker_counter m w t ht, if_neg hs, hm]
      rw [ih _ _ h1]
      simp [workersWithStatus, List.countP_cons, hs]

theorem foldl_other (ws : List UWSGIWorker) (m : Stat) (k : String)
    (hk : ¬ (k = "idle" ∨ k = "busy" ∨ k = "cheap" ∨ k = "pause")) (hr : k ≠ "requests") :
    ws.foldl countWorker m k = m k := by
  induction ws generalizing m with
  | nil => rfl
  | cons w ws ih => rw [List.foldl_cons, ih, countWorker_other m w k hk hr]

/-! ## FetchMetrics in closed form -/

theorem foldl_countWorker_eq_snapshotOf (s : UWSGIStats) :
    s.Workers.foldl countWorker
      ((((((Stat.empty.set "busy" Float64.zero).set "idle" Float64.zero).set "cheap"
        Float64.zero).set "pause" Float64.zero).set "requests" Float64.zero).set "queue"
        (Float64.ofUInt64 s.ListenQueue)) = snapshotOf s := by
  funext k
  by_cases hq : k = "queue"
  · subst hq
    rw [foldl_other _ _ _ (by decide) (by decide)]
    simp [snapshotOf, Stat.set]
  by_cases hr : k = "requests"
  · subst hr
    rw [foldl_requests _ _ Float64.zero (by simp [Stat.set])]
    simp [snapshotOf, accumulatedRequests]
  by_cases ht : k = "idle" ∨ k = "busy" ∨ k = "cheap" ∨ k = "pause"
  · rw [foldl_counter _ _ k Float64.zero ht
      (by rcases ht with h | h | h | h <;> subst h <;> simp [Stat.set])]
    rw [Float64.zero, Float64.increment_iterate]
    simp [snapshotOf, hq, hr, ht]
  · rw [foldl_other _ _ _ ht hr]
    have h := not_or.mp ht
    have h2 := not_or.mp h.2
    have h3 := not_or.mp h2.2
    simp [snapshotOf, Stat.set, Stat.empty, hq, hr, h.1, h2.1, h3.1, h3.2]

theorem decodeAndCount_ok (body : Body) (s : UWSGIStats) (h : Decode body = .ok s) :
    decodeAndCount (((((Stat.empty.set "busy" Float64.zero).set "idle" Float64.zero).set "cheap"
        Float64.zero).set "pause" Float64.zero).set "requests" Float64.zero) body =
      (some (snapshotOf s), none) := by
  simp only [decodeAndCount, h]
  rw [foldl_countWorker_eq_snapshotOf]

theorem decodeAndCount_error (stat : Stat) (body : Body) (e : Error)
    (h : Decode body = .error e) : decodeAndCount stat body = (none, some e) := by
  simp only [decodeAndCount, h]

/-- What `FetchMetrics` returns once the transport has handed over a body. -/
theorem FetchMetrics_of_delivers (w : World) (p : UWSGIVassalPlugin) (body : Body)
    (h : Delivers w p body) :
    (FetchMetrics w p).stat =
        (decodeAndCount (((((Stat.empty.set "busy" Float64.zero).set "idle" Float64.zero).set
          "cheap" Float64.zero).set "pause" Float64.zero).set "requests" Float64.zero) body).1 ∧
      (FetchMetrics w p).err =
        (decodeAndCount (((((Stat.empty.set "busy" Float64.zero).set "idle" Float64.zero).set
          "cheap" Float64.zero).set "pause" Float64.zero).set "requests" Float64.zero) body).2 := by
  rcases h with ⟨h1, h2⟩ | ⟨h1, h2, h3⟩
  · simp [FetchMetrics, h1, h2]
  · simp [FetchMetrics, h1, h2, h3]

theorem FetchMetrics_ok (w : World) (p : UWSGIVassalPlugin) (body : Body) (s : UWSGIStats)
    (h : Delivers w p body) (hd : Decode body = .ok s) :
    (FetchMetrics w p).stat = some (snapshotOf s) ∧ (FetchMetrics w p).err = none := by
  have := FetchMetrics_of_delivers w p body h
  rw [decodeAndCount_ok body s hd] at this
  exact this

theorem FetchMetrics_decode_error (w : World) (p : UWSGIVassalPlugin) (body : Body) (e : Error)
    (h : Delivers w p body) (hd : Decode body = .error e) :
    (FetchMetrics w p).stat = none ∧ (FetchMetrics w p).err = some e := by
  have := FetchMetrics_of_delivers w p body h
  rw [decodeAndCount_error _ body e hd] at this
  exact this

/-- Every call ends in one of three ways: the configuration error, a transport
error, or a delivered body. -/
theorem FetchMetrics_cases (w : World) (p : UWSGIVassalPlugin) :
    ((FetchMetrics w p).stat = none ∧ ∃ e, (FetchMetrics w p).err = some e) ∨
      ∃ body, Delivers w p body := by
  by_cases h1 : HasPrefix p.Socket "unix://" = true
  · cases h2 : w.Dial "unix" (TrimPrefix p.Socket "unix://") with
    | error e => left; simp [FetchMetrics, h1, h2]
    | ok body => right; exact ⟨body, Or.inl ⟨h1, h2⟩⟩
  · by_cases h3 : HasPrefix p.Socket "http://" = true
    · cases h2 : w.Get p.Socket with
      | error e => left; simp [FetchMetrics, h1, h3, h2]
      | ok body => right; exact ⟨body, Or.inr ⟨by simpa using h1, h3, h2⟩⟩
    · left; simp [FetchMetrics, h1, h3]

/-! ## Exact totals and counts -/

theorem foldl_add_requests_exact (ws : List UWSGIWorker) (a : Nat)
    (h : a + totalRequests ws ≤ 2 ^ 53) :
    ws.foldl (fun acc w => acc + Float64.ofUInt64 w.Requests) (.fin a) =
      .fin (a + totalRequests ws) := by
  induction ws generalizing a with
  | nil => simp [totalRequests]
  | cons x xs ih =>
    have hx : totalRequests (x :: xs) = x.Requests + totalRequests xs := by
      simp [totalRequests]
    rw [hx] at h
    rw [List.foldl_cons, Float64.ofUInt64, Float64.round_of_le x.Requests (by omega),
      Float64.add_of_le a x.Requests (by omega), ih (a + x.Requests) (by omega), hx]
    congr 1
    omega

theorem accumulatedRequests_exact (ws : List UWSGIWorker) (h : totalRequests ws ≤ 2 ^ 53) :
    accumulatedRequests ws = .fin (totalRequests ws) := by
  have := foldl_add_requests_exact ws 0 (by omega)
  simpa [accumulatedRequests, Float64.zero] using this

theorem workersWithStatus_le_length (t : String) (ws : List UWSGIWorker) :
    workersWithStatus t ws ≤ ws.length :=
  List.countP_le_length _

/-- The four counts add up to the number of workers with a recognised status. -/
theorem workersWithStatus_sum (ws : List UWSGIWorker) :
    workersWithStatus "busy" ws + workersWithStatus "idle" ws + workersWithStatus "cheap" ws +
        workersWithStatus "pause" ws =
      ws.countP (fun x => x.Status = "idle" ∨ x.Status = "busy" ∨ x.Status = "cheap" ∨
        x.Status = "pause") := by
  induction ws with
  | nil => rfl
  | cons x xs ih =>
    simp only [workersWithStatus] at ih ⊢
    simp only [List.countP_cons]
    rw [← ih]
    by_cases h1 : x.Status = "busy"
    · simp [h1]; omega
    by_cases h2 : x.Status = "idle"
    · simp [h2]; omega
    by_cases h3 : x.Status = "cheap"
    · simp [h3]; omega
    by_cases h4 : x.Status = "pause"
    · simp [h4]; omega
    simp [h1, h2, h3, h4]

/-! ## The transport hands over one body -/

theorem Delivers_unique (w : World) (p : UWSGIVassalPlugin) (b₁ b₂ : Body)
    (h₁ : Delivers w p b₁) (h₂ : Delivers w p b₂) : b₁ = b₂ := by
  rcases h₁ with ⟨a1, a2⟩ | ⟨a1, _, a3⟩ <;> rcases h₂ with ⟨c1, c2⟩ | ⟨c1, _, c3⟩
  · rw [a2] at c2
    exact Except.ok.inj c2
  · rw [a1] at c1
    cases c1
  · rw [a1] at c1
    cases c1
  · rw [a3] at c3
    exact Except.ok.inj c3

theorem snapshotOf_keys (s : UWSGIStats) (k : String) :
    snapshotOf s k ≠ none ↔ k ∈ snapshotKeys := by
  simp only [snapshotOf, snapshotKeys, List.mem_cons, List.mem_singleton, List.not_mem_nil,
    or_false]
  by_cases hq : k = "queue"
  · simp [hq]
  by_cases hr : k = "requests"
  · simp [hr]
  by_cases ht : k = "idle" ∨ k = "busy" ∨ k = "cheap" ∨ k = "pause"
  · rw [if_neg hq, if_neg hr, if_pos ht]
    simp only [ne_eq, reduceCtorEq, not_false_eq_true, true_iff]
    tauto
  · rw [if_neg hq, if_neg hr, if_neg ht]
    simp only [ne_eq, not_true_eq_false, false_iff]
    tauto

/-- A successful call has been handed a body that decodes. -/
theorem FetchMetrics_success (w : World) (p : UWSGIVassalPlugin)
    (hok : (FetchMetrics w p).err = none) :
    ∃ body s, Delivers w p body ∧ Decode body = .ok s ∧
      (FetchMetrics w p).stat = some (snapshotOf s) := by
  rcases FetchMetrics_cases w p with ⟨_, e, he⟩ | ⟨body, hb⟩
  · rw [hok] at he
    cases he
  · cases hd : Decode body with
    | error e =>
      have := (FetchMetrics_decode_error w p body e hb hd).2
      rw [hok] at this
      cases this
    | ok s => exact ⟨body, s, hb, hd, (FetchMetrics_ok w p body s hb hd).1⟩

/-- A call that returns an error returns no map. -/
theorem FetchMetrics_error_no_stat (w : World) (p : UWSGIVassalPlugin)
    (herr : (FetchMetrics w p).err ≠ none) : (FetchMetrics w p).stat = none := by
  rcases FetchMetrics_cases w p with ⟨h, _⟩ | ⟨body, hb⟩
  · exact h
  · cases hd : Decode body with
    | error e => exact (FetchMetrics_decode_error w p body e hb hd).1
    | ok s => exact absurd (FetchMetrics_ok w p body s hb hd).2 herr

/-! ## Keys built from a prefix -/

theorem append_left_cancel (a b c : String) (h : a ++ b = a ++ c) : b = c := by
  have h2 := congrArg String.data h
  simp only [String.data_append] at h2
  exact String.ext (List.append_cancel_left h2)

/-! ## The scanner, step by step -/

/-- Case analysis on a conditional equated to a value. -/
theorem ite_elim {α : Type} {p : Prop} [Decidable p] {a b x : α} {G : Prop}
    (h1 : p → a = x → G) (h2 : ¬ p → b = x → G) : (if p then a else b) = x → G := by
  intro h
  by_cases hp : p
  · exact h1 hp (by rwa [if_pos hp] at h)
  · exact h2 hp (by rwa [if_neg hp] at h)

set_option maxHeartbeats 4000000 in
/-- What one step that neither ends the value nor fails can do at the top level:
it stays at the beginning of the value only on a space, it reaches the state
after `[` only with a non-empty stack, and it is inside a number only if it was
already, or if the byte is the minus sign or the digit that begins the number;
a number leaves the stack as it is. -/
theorem Scanner.next_cases (s s' : Scanner) (c : Char) (op : ScanOp)
    (h : s.next c = (s', op)) (h1 : op ≠ .scanEnd) (h2 : op ≠ .scanError)
    (h3 : op ≠ .scanEndObject) (h4 : op ≠ .scanEndArray) :
    (s'.step = .stateBeginValue →
        (s' = s ∧ isSpace c = true) ∨ s'.parseState ≠ []) ∧
      (s'.step = .stateBeginValueOrEmpty → s' = s ∨ s'.parseState ≠ []) ∧
      (inNumber s'.step = true → s'.parseState = s.parseState ∧
        (inNumber s.step = true ∨
          ((s.step = .stateBeginValue ∨ s.step = .stateBeginValueOrEmpty) ∧
            isSpace c = false ∧ (c = '-' ∨ isDigit c = true)))) := by
  obtain ⟨st, stk⟩ := s
  revert h
  rcases stk with _ | ⟨ps, rest⟩
  · cases st <;>
      simp only [Scanner.next, Scanner.stateBeginValueOrEmpty, Scanner.stateBeginValue,
        Scanner.stateBeginStringOrEmpty, Scanner.stateBeginString, Scanner.stateEndValue,
        Scanner.stateEndTop, Scanner.stateInString, Scanner.stateInStringEsc, Scanner.expect,
        Scanner.state0, Scanner.state1, Scanner.stateDot0, Scanner.stateESign, Scanner.stateE,
        Scanner.stateE0, Scanner.stateNeg, Scanner.goto, Scanner.error, Scanner.pushParseState,
        Scanner.popParseState, List.tail] <;>
      (repeat' refine ite_elim (fun _ => ?_) (fun _ => ?_)) <;>
      intro h <;> simp only [Prod.mk.injEq] at h <;> obtain ⟨rfl, rfl⟩ := h <;>
      first
        | exact absurd rfl h1
        | exact absurd rfl h2
        | exact absurd rfl h3
        | exact absurd rfl h4
        | (simp [inNumber, *]; done)
        | (subst_vars; simp [inNumber, isDigit, isSpace]; done)
  · cases ps <;> cases st <;>
      simp only [Scanner.next, Scanner.stateBeginValueOrEmpty, Scanner.stateBeginValue,
        Scanner.stateBeginStringOrEmpty, Scanner.stateBeginString, Scanner.stateEndValue,
        Scanner.stateEndTop, Scanner.stateInString, Scanner.stateInStringEsc, Scanner.expect,
        Scanner.state0, Scanner.state1, Scanner.stateDot0, Scanner.stateESign, Scanner.stateE,
        Scanner.stateE0, Scanner.stateNeg, Scanner.goto, Scanner.error, Scanner.pushParseState,
        Scanner.popParseState, List.tail] <;>
      (repeat' refine ite_elim (fun _ => ?_) (fun _ => ?_)) <;>
      intro h <;> simp only [Prod.mk.injEq] at h <;> obtain ⟨rfl, rfl⟩ := h <;>
      first
        | exact absurd rfl h1
        | exact absurd rfl h2
        | exact absurd rfl h3
        | exact absurd rfl h4
        | (simp [inNumber, *]; done)
        | (subst_vars; simp [inNumber, isDigit, isSpace]; done)

set_option maxHeartbeats 4000000 in
/-- Only a top-level number can end at the end of the stream without ending at
the next byte whatever it is. -/
theorem Scanner.eof_ends_number (s : Scanner) (c : Char)
    (h : (s.next ' ').2 = .scanEnd) (hc : (s.next c).2 ≠ .scanEnd) :
    s.parseState = [] ∧ inNumber s.step = true := by
  obtain ⟨st, stk⟩ := s
  rcases stk with _ | ⟨ps, rest⟩
  · cases st <;> first
      | (exfalso; revert h; decide)
      | exact ⟨rfl, rfl⟩
      | (exfalso; apply hc; simp only [Scanner.next, Scanner.stateEndValue, Scanner.stateEndTop,
          Scanner.goto, Scanner.error]; split <;> rfl)
  · exfalso
    revert h
    cases ps <;> cases st <;>
      simp [Scanner.next, Scanner.stateBeginValueOrEmpty, Scanner.stateBeginValue,
        Scanner.stateBeginStringOrEmpty, Scanner.stateBeginString, Scanner.stateEndValue,
        Scanner.stateEndTop, Scanner.stateInString, Scanner.stateInStringEsc, Scanner.expect,
        Scanner.state0, Scanner.state1, Scanner.stateDot0, Scanner.stateESign, Scanner.stateE,
        Scanner.stateE0, Scanner.stateNeg, Scanner.goto, Scanner.error, Scanner.pushParseState,
        Scanner.popParseState, isSpace, isDigit, isHex] <;>
      (apply hc; simp only [Scanner.next, Scanner.stateEndTop, Scanner.error];
        split <;> rfl)

/-! ## Leading spaces -/

theorem dropWhile_append_of_nil {p : Char → Bool} (pre : List Char) (c : Char)
    (h : pre.dropWhile p = []) :
    (pre ++ [c]).dropWhile p = if p c = true then [] else [c] := by
  induction pre with
  | nil => cases hc : p c <;> simp [List.dropWhile, hc]
  | cons x xs ih =>
    by_cases hx : p x = true
    · simp only [List.dropWhile_cons_of_pos hx] at h
      simp only [List.cons_append, List.dropWhile_cons_of_pos hx, ih h]
    · simp [List.dropWhile, hx] at h

theorem dropWhile_append_of_cons {p : Char → Bool} (pre post : List Char) (x : Char)
    (xs : List Char) (h : pre.dropWhile p = x :: xs) :
    (pre ++ post).dropWhile p = x :: (xs ++ post) := by
  induction pre with
  | nil => simp at h
  | cons y ys ih =>
    by_cases hy : p y = true
    · simp only [List.dropWhile_cons_of_pos hy] at h
      simp only [List.cons_append, List.dropWhile_cons_of_pos hy, ih h]
    · simp only [List.dropWhile_cons_of_neg hy] at h
      simp only [List.cons_append, List.dropWhile_cons_of_neg hy]
      simp only [List.cons.injEq] at h
      rw [h.1, h.2]

theorem startsNumber_append (pre post : List Char) (h : startsNumber pre) :
    startsNumber (pre ++ post) := by
  obtain ⟨c, cs, hd, hc⟩ := h
  exact ⟨c, cs ++ post, dropWhile_append_of_cons pre post c cs hd, hc⟩

theorem head_dropWhile_take {p : Char → Bool} (l : List Char) (n : Nat) (c : Char)
    (cs : List Char) (h : (l.take n).dropWhile p = c :: cs) :
    (l.dropWhile p).head? = some c := by
  induction l generalizing n with
  | nil => simp at h
  | cons x xs ih =>
    cases n with
    | zero => simp at h
    | succ n =>
      rw [List.take_succ_cons] at h
      by_cases hx : p x = true
      · rw [List.dropWhile_cons_of_pos hx] at h ⊢
        exact ih n h
      · rw [List.dropWhile_cons_of_neg hx] at h ⊢
        simp only [List.cons.injEq] at h
        simp [h.1]

/-! ## Truncated streams -/

theorem TopLevel_of_endValue (s : Scanner) (pre : List Char) (h : s.step = .stateEndValue) :
    TopLevel s pre := by
  refine ⟨fun _ h2 => ?_, fun h2 => ?_, fun _ h2 => ?_⟩
  · rw [h] at h2; cases h2
  · rw [h] at h2; cases h2
  · rw [h] at h2; exact absurd h2 (by decide)

theorem TopLevel_next (s s' : Scanner) (c : Char) (op : ScanOp) (pre : List Char)
    (hJ : TopLevel s pre) (h : s.next c = (s', op)) (h1 : op ≠ .scanEnd)
    (h2 : op ≠ .scanError) (h3 : op ≠ .scanEndObject) (h4 : op ≠ .scanEndArray) :
    TopLevel s' (pre ++ [c]) := by
  obtain ⟨a, b, n⟩ := Scanner.next_cases s s' c op h h1 h2 h3 h4
  obtain ⟨j1, j2, j3⟩ := hJ
  refine ⟨fun hs hb => ?_, fun hb => ?_, fun hs hn => ?_⟩
  · rcases a hb with ⟨e, hsp⟩ | hne
    · subst e
      rw [dropWhile_append_of_nil pre c (j1 hs hb), if_pos hsp]
    · exact absurd hs hne
  · rcases b hb with e | hne
    · subst e
      exact j2 hb
    · exact hne
  · obtain ⟨hst, hcase⟩ := n hn
    rw [hs] at hst
    rcases hcase with hnum | ⟨hbv | hbo, hsp, hc⟩
    · exact startsNumber_append pre [c] (j3 hst.symm hnum)
    · refine ⟨c, [], ?_, hc⟩
      rw [dropWhile_append_of_nil pre c (j1 hst.symm hbv)]
      simp [hsp]
    · exact absurd hst.symm (j2 hbo)

theorem stateEndValue_space (s : Scanner)
    (h : (Scanner.stateEndValue s ' ').2 ≠ .scanEnd) :
    (Scanner.stateEndValue s ' ').1.step = .stateEndValue := by
  obtain ⟨st, stk⟩ := s
  rcases stk with _ | ⟨ps, rest⟩
  · exact absurd rfl h
  · rfl

theorem map_succ_eq_ok (x : Except Error Nat) (n : Nat)
    (h : x.map (· + 1) = .ok n) : ∃ m, x = .ok m ∧ n = m + 1 := by
  cases x with
  | error e => cases h
  | ok m => exact ⟨m, rfl, (Except.ok.inj h).symm⟩

/-- One more byte of a stream that goes on. -/
theorem readLoop_step (s' : Scanner) (c : Char) (cs pre : List Char) (n k : Nat)
    (ih : ∀ n k, TopLevel s' (pre ++ [c]) → readLoop s' cs = .ok n → k < n →
      (∃ e, readLoop s' (cs.take k) = .error e) ∨
        (readLoop s' (cs.take k) = .ok k ∧ startsNumber ((pre ++ [c]) ++ cs.take k)))
    (hJ : TopLevel s' (pre ++ [c])) (h : (readLoop s' cs).map (· + 1) = .ok n)
    (hk : k + 1 < n) :
    (∃ e, (readLoop s' (cs.take k)).map (· + 1) = .error e) ∨
      ((readLoop s' (cs.take k)).map (· + 1) = .ok (k + 1) ∧
        startsNumber (pre ++ c :: cs.take k)) := by
  obtain ⟨m, hm, rfl⟩ := map_succ_eq_ok _ _ h
  rcases ih m k hJ hm (by omega) with ⟨e, he⟩ | ⟨hok, hnum⟩
  · exact Or.inl ⟨e, by rw [he]; rfl⟩
  · refine Or.inr ⟨by rw [hok]; rfl, ?_⟩
    simpa using hnum

/-- A stream cut before the end of its first value is an error at the end of
the stream, unless what is left is a complete number. -/
theorem readLoop_truncated (full : List Char) :
    ∀ (s : Scanner) (pre : List Char) (n k : Nat), TopLevel s pre →
      readLoop s full = .ok n → k < n →
      (∃ e, readLoop s (full.take k) = .error e) ∨
        (readLoop s (full.take k) = .ok k ∧ startsNumber (pre ++ full.take k)) := by
  induction full with
  | nil =>
    intro s pre n k _ h hk
    exfalso
    simp only [readLoop] at h
    split at h
    · cases h; omega
    · cases h
  | cons c cs ih =>
    intro s pre n k hJ h hk
    cases hn : s.next c with
    | mk s' op =>
      cases k with
      | zero =>
        simp only [List.take_zero, List.append_nil, readLoop]
        by_cases he : (s.next ' ').2 = .scanEnd
        · right
          have hc : (s.next c).2 ≠ .scanEnd := by
            intro hend
            rw [hn] at hend
            simp only at hend
            subst hend
            simp only [readLoop, hn] at h
            cases h
            omega
          exact ⟨by rw [if_pos he], hJ.2.2 (Scanner.eof_ends_number s c he hc).1
            (Scanner.eof_ends_number s c he hc).2⟩
        · left
          exact ⟨.syntaxError, by rw [if_neg he]⟩
      | succ k =>
        rw [List.take_succ_cons]
        cases op <;> simp only [readLoop, hn] at h ⊢
        case scanEnd => cases h; omega
        case scanError => cases h
        case scanEndObject =>
          split at h
          · cases h; omega
          · rename_i hne
            rw [if_neg hne]
            exact readLoop_step _ c cs pre n k (fun n k => ih _ _ n k)
              (TopLevel_of_endValue _ _ (stateEndValue_space s' hne)) h hk
        case scanEndArray =>
          split at h
          · cases h; omega
          · rename_i hne
            rw [if_neg hne]
            exact readLoop_step _ c cs pre n k (fun n k => ih _ _ n k)
              (TopLevel_of_endValue _ _ (stateEndValue_space s' hne)) h hk
        all_goals
          exact readLoop_step _ c cs pre n k (fun n k => ih _ _ n k)
            (TopLevel_next s s' c _ pre hJ hn (by decide) (by decide) (by decide) (by decide))
            h hk

/-! ## What a stream decodes to -/

theorem TopLevel_reset : TopLevel Scanner.reset [] :=
  ⟨fun _ _ => rfl, fun h => absurd h (by decide), fun _ h => absurd h (by decide)⟩

theorem Decode_value_error (j : JSON StatsObject Unit) (hnull : j ≠ .null)
    (hobj : ∀ o, j ≠ .obj o) : Decode (.value j) = .error .unmarshalType := by
  cases j with
  | null => exact absurd rfl hnull
  | obj o => exact absurd rfl (hobj o)
  | bool b => rfl
  | nat n => rfl
  | number => rfl
  | str s => rfl
  | arr a => rfl

/-- The value of bytes that begin with neither `{` nor `n` is neither an object
nor null. -/
theorem topLevelValue_other (value : List Char) (members : StatsObject)
    (h1 : (value.dropWhile isSpace).head? ≠ some '{')
    (h2 : (value.dropWhile isSpace).head? ≠ some 'n') :
    topLevelValue value members ≠ .null ∧ ∀ o, topLevelValue value members ≠ .obj o := by
  unfold topLevelValue
  cases hd : value.dropWhile isSpace with
  | nil => exact ⟨by simp, by simp⟩
  | cons c cs =>
    rw [hd] at h1 h2
    have c1 : ¬ c = '{' := fun e => h1 (by rw [e]; rfl)
    have c2 : ¬ c = 'n' := fun e => h2 (by rw [e]; rfl)
    simp only [if_neg c1, if_neg c2]
    constructor
    · repeat' split
      all_goals simp
    · intro o
      repeat' split
      all_goals simp

theorem head_of_startsNumber (stream : List Char) (h : startsNumber stream) :
    (stream.dropWhile isSpace).head? ≠ some '{' ∧
      (stream.dropWhile isSpace).head? ≠ some 'n' := by
  obtain ⟨c, cs, hd, hc⟩ := h
  rw [hd]
  simp only [List.head?_cons, ne_eq, Option.some.injEq]
  constructor
  · rintro rfl
    rcases hc with hc | hc
    · exact absurd hc (by decide)
    · exact absurd hc (by decide)
  · rintro rfl
    rcases hc with hc | hc
    · exact absurd hc (by decide)
    · exact absurd hc (by decide)

/-- A stream whose first byte after the spaces is neither `{` nor `n` does not
decode. -/
theorem Decode_ofStream_other (stream : List Char) (members : StatsObject)
    (h1 : (stream.dropWhile isSpace).head? ≠ some '{')
    (h2 : (stream.dropWhile isSpace).head? ≠ some 'n') :
    ∃ e, Decode (Body.ofStream stream members) = .error e := by
  unfold Body.ofStream
  cases hr : readValue stream with
  | error e => exact ⟨e, rfl⟩
  | ok n =>
    refine ⟨.unmarshalType, ?_⟩
    have hv : ∀ x : Char, (stream.dropWhile isSpace).head? ≠ some x →
        ((stream.take n).dropWhile isSpace).head? ≠ some x := by
      intro x hx hcon
      cases hd : (stream.take n).dropWhile isSpace with
      | nil => rw [hd] at hcon; cases hcon
      | cons c cs =>
        rw [hd] at hcon
        have := head_dropWhile_take stream n c cs hd
        rw [this] at hx
        exact hx hcon
    obtain ⟨a, b⟩ := topLevelValue_other (stream.take n) members (hv _ h1) (hv _ h2)
    exact Decode_value_error _ a b

/-- A stream cut before the end of its first value does not decode. -/
theorem Decode_ofStream_truncated (full : List Char) (n k : Nat) (members : StatsObject)
    (h : readValue full = .ok n) (hk : k < n) :
    ∃ e, Decode (Body.ofStream (full.take k) members) = .error e := by
  rcases readLoop_truncated full Scanner.reset [] n k TopLevel_reset h hk with
    ⟨e, he⟩ | ⟨_, hnum⟩
  · refine ⟨e, ?_⟩
    unfold Body.ofStream readValue
    rw [he]
    rfl
  · obtain ⟨a, b⟩ := head_of_startsNumber _ (by simpa using hnum)
    exact Decode_ofStream_other _ members a b

/-! ## Reading a stream piece by piece -/

theorem scanPrefix_append (a b : List Char) :
    ∀ s, scanPrefix s (a ++ b) = (scanPrefix s a).bind (fun s' => scanPrefix s' b) := by
  induction a with
  | nil => intro s; rfl
  | cons c cs ih =>
    intro s
    cases hn : s.next c with
    | mk s' op =>
      cases op <;> simp only [List.cons_append, scanPrefix, hn, Option.bind]
      case scanEndObject => split <;> [rfl; exact ih _]
      case scanEndArray => split <;> [rfl; exact ih _]
      all_goals exact ih _

theorem readLoop_append_error (a b : List Char) (e : Error) :
    ∀ s s', scanPrefix s a = some s' → readLoop s' b = .error e →
      readLoop s (a ++ b) = .error e := by
  induction a with
  | nil =>
    intro s s' h hb
    cases h
    exact hb
  | cons c cs ih =>
    intro s s' h hb
    cases hn : s.next c with
    | mk s1 op =>
      cases op <;> simp only [scanPrefix, hn] at h <;>
        simp only [List.cons_append, readLoop, hn]
      case scanEnd => cases h
      case scanError => cases h
      case scanEndObject =>
        split at h
        · cases h
        · rename_i hne
          rw [if_neg hne, show readLoop _ (cs.append b) = .error e from ih _ _ h hb]
          rfl
      case scanEndArray =>
        split at h
        · cases h
        · rename_i hne
          rw [if_neg hne, show readLoop _ (cs.append b) = .error e from ih _ _ h hb]
          rfl
      all_goals
        rw [show readLoop _ (cs.append b) = .error e from ih _ _ h hb]
        rfl

/-! ## Claims on the snapshot of a decoded document -/

/-- C1, as stated, fails at a `listen_queue` that binary64 does not represent:
for the document with `listen_queue` 9007199254740993 (`2 ^ 53 + 1`) and no
workers, delivered over a unix socket, the decode succeeds and the snapshot has
`queue` 9007199254740992. -/
theorem FetchMetrics_queue_rounded :
    Delivers (worldServing (document 9007199254740993 [])) unixPlugin
        (document 9007199254740993 []) ∧
      Decode (document 9007199254740993 []) = .ok ⟨9007199254740993, []⟩ ∧
      (FetchMetrics (worldServing (document 9007199254740993 [])) unixPlugin).stat.map
          (fun m => m "queue") = some (some (.fin 9007199254740992)) ∧
      Float64.fin 9007199254740992 ≠ .fin 9007199254740993 :=
  ⟨Or.inl ⟨rfl, rfl⟩, rfl, by decide, by decide⟩

/-- C1, amended: for every successfully decoded status document, `FetchMetrics`
returns no error and a snapshot whose `queue` is `listen_queue` converted to
float64, which is `listen_queue` itself up to `2 ^ 53`; and, the workers slice
holding at most `2 ^ 53` entries, for each tag among busy, idle, cheap, pause the
value at that key is the number of workers whose status is exactly that tag, so a
worker with any other status is counted nowhere. -/
theorem FetchMetrics_queue_and_counters (w : World) (p : UWSGIVassalPlugin) (body : Body)
    (s : UWSGIStats) (h : Delivers w p body) (hd : Decode body = .ok s)
    (hlen : s.Workers.length ≤ 2 ^ 53) :
    ∃ m, (FetchMetrics w p).stat = some m ∧ (FetchMetrics w p).err = none ∧
      m "queue" = some (Float64.ofUInt64 s.ListenQueue) ∧
      (s.ListenQueue ≤ 2 ^ 53 → m "queue" = some (.fin s.ListenQueue)) ∧
      ∀ t, t ∈ ["busy", "idle", "cheap", "pause"] →
        m t = some (.fin (workersWithStatus t s.Workers)) := by
  obtain ⟨h1, h2⟩ := FetchMetrics_ok w p body s h hd
  refine ⟨snapshotOf s, h1, h2, by simp [snapshotOf], ?_, ?_⟩
  · intro hq
    simp [snapshotOf, Float64.ofUInt64, Float64.round_of_le _ hq]
  · intro t ht
    have hc : workersWithStatus t s.Workers ≤ 2 ^ 53 :=
      le_trans (workersWithStatus_le_length t s.Workers) hlen
    simp only [List.mem_cons, List.mem_singleton, List.not_mem_nil, or_false] at ht
    rcases ht with ht | ht | ht | ht <;> subst ht <;> simp [snapshotOf] <;> exact hc

/-- C1, amended, at the first example document served over a unix socket. -/
theorem FetchMetrics_queue_and_counters_witness :
    Delivers (worldServing sampleDocument) unixPlugin sampleDocument ∧
      Decode sampleDocument = .ok sampleStats ∧ sampleStats.Workers.length ≤ 2 ^ 53 ∧
      ∃ m, (FetchMetrics (worldServing sampleDocument) unixPlugin).stat = some m ∧
        (FetchMetrics (worldServing sampleDocument) unixPlugin).err = none ∧
        m "queue" = some (Float64.ofUInt64 sampleStats.ListenQueue) ∧
        (sampleStats.ListenQueue ≤ 2 ^ 53 → m "queue" = some (.fin sampleStats.ListenQueue)) ∧
        ∀ t, t ∈ ["busy", "idle", "cheap", "pause"] →
          m t = some (.fin (workersWithStatus t sampleStats.Workers)) :=
  ⟨Or.inl ⟨rfl, rfl⟩, rfl, by decide,
    FetchMetrics_queue_and_counters (worldServing sampleDocument) unixPlugin sampleDocument
      sampleStats (Or.inl ⟨rfl, rfl⟩) rfl (by decide)⟩

/-- C2, as stated, fails once a conversion rounds: for the document with one
worker whose `requests` is 9007199254740993 (`2 ^ 53 + 1`), the exact sum is
9007199254740993 and the snapshot has `requests` 9007199254740992. -/
theorem FetchMetrics_requests_rounded :
    Delivers (worldServing (document 0 [(9007199254740993, "idle")])) httpPlugin
        (document 0 [(9007199254740993, "idle")]) ∧
      Decode (document 0 [(9007199254740993, "idle")]) =
        .ok ⟨0, [⟨9007199254740993, "idle"⟩]⟩ ∧
      totalRequests [⟨9007199254740993, "idle"⟩] = 9007199254740993 ∧
      (FetchMetrics (worldServing (document 0 [(9007199254740993, "idle")])) httpPlugin).stat.map
          (fun m => m "requests") = some (some (.fin 9007199254740992)) ∧
      Float64.fin 9007199254740992 ≠ .fin 9007199254740993 :=
  ⟨Or.inr ⟨rfl, rfl, rfl⟩, rfl, by decide, by decide, by decide⟩

/-- C2, amended: for every successfully decoded status document, the value at key
`requests` is the float64 running total of the workers' `requests` fields (each
converted to float64, then added, in order, whatever the statuses), and it is the
exact sum of the fields whenever that sum is at most `2 ^ 53`. -/
theorem FetchMetrics_requests_total (w : World) (p : UWSGIVassalPlugin) (body : Body)
    (s : UWSGIStats) (h : Delivers w p body) (hd : Decode body = .ok s) :
    ∃ m, (FetchMetrics w p).stat = some m ∧
      m "requests" = some (accumulatedRequests s.Workers) ∧
      (totalRequests s.Workers ≤ 2 ^ 53 → m "requests" = some (.fin (totalRequests s.Workers))) := by
  obtain ⟨h1, _⟩ := FetchMetrics_ok w p body s h hd
  refine ⟨snapshotOf s, h1, by simp [snapshotOf], ?_⟩
  intro hsum
  simp [snapshotOf, accumulatedRequests_exact _ hsum]

/-- C2, amended, at the first example document served over HTTP. -/
theorem FetchMetrics_requests_total_witness :
    Delivers (worldServing sampleDocument) httpPlugin sampleDocument ∧
      Decode sampleDocument = .ok sampleStats ∧
      ∃ m, (FetchMetrics (worldServing sampleDocument) httpPlugin).stat = some m ∧
        m "requests" = some (accumulatedRequests sampleStats.Workers) ∧
        (totalRequests sampleStats.Workers ≤ 2 ^ 53 →
          m "requests" = some (.fin (totalRequests sampleStats.Workers))) :=
  ⟨Or.inr ⟨rfl, rfl, rfl⟩, rfl,
    FetchMetrics_requests_total (worldServing sampleDocument) httpPlugin sampleDocument
      sampleStats (Or.inr ⟨rfl, rfl, rfl⟩) rfl⟩

/-- C3: for every decoded worker sequence, the four counters of the snapshot
satisfy busy + idle + cheap + pause ≤ len(workers); and, the slice holding at
most `2 ^ 53` workers (as any slice in memory does), equality holds if and only
if every worker's status is one of idle, busy, cheap, pause. -/
theorem FetchMetrics_counters_le_workers (w : World) (p : UWSGIVassalPlugin) (body : Body)
    (s : UWSGIStats) (h : Delivers w p body) (hd : Decode body = .ok s) :
    ∃ m busy idle cheap pause, (FetchMetrics w p).stat = some m ∧
      m "busy" = some (.fin busy) ∧ m "idle" = some (.fin idle) ∧
      m "cheap" = some (.fin cheap) ∧ m "pause" = some (.fin pause) ∧
      busy + idle + cheap + pause ≤ s.Workers.length ∧
      (s.Workers.length ≤ 2 ^ 53 →
        (busy + idle + cheap + pause = s.Workers.length ↔
          ∀ x ∈ s.Workers, x.Status = "idle" ∨ x.Status = "busy" ∨ x.Status = "cheap" ∨
            x.Status = "pause")) := by
  obtain ⟨h1, _⟩ := FetchMetrics_ok w p body s h hd
  have hsum := workersWithStatus_sum s.Workers
  have hle : List.countP (fun x => decide (x.Status = "idle" ∨ x.Status = "busy" ∨
      x.Status = "cheap" ∨ x.Status = "pause")) s.Workers ≤ s.Workers.length :=
    List.countP_le_length _
  refine ⟨snapshotOf s, min (workersWithStatus "busy" s.Workers) (2 ^ 53),
    min (workersWithStatus "idle" s.Workers) (2 ^ 53),
    min (workersWithStatus "cheap" s.Workers) (2 ^ 53),
    min (workersWithStatus "pause" s.Workers) (2 ^ 53), h1,
    by simp [snapshotOf], by simp [snapshotOf], by simp [snapshotOf], by simp [snapshotOf],
    ?_, ?_⟩
  · have hb := Nat.min_le_left (workersWithStatus "busy" s.Workers) (2 ^ 53)
    have hi := Nat.min_le_left (workersWithStatus "idle" s.Workers) (2 ^ 53)
    have hc := Nat.min_le_left (workersWithStatus "cheap" s.Workers) (2 ^ 53)
    have hp := Nat.min_le_left (workersWithStatus "pause" s.Workers) (2 ^ 53)
    omega
  · intro hlen
    have hc : ∀ t, min (workersWithStatus t s.Workers) (2 ^ 53) = workersWithStatus t s.Workers :=
      fun t => Nat.min_eq_left (le_trans (workersWithStatus_le_length t s.Workers) hlen)
    rw [hc, hc, hc, hc, hsum, List.countP_eq_length]
    simp

/-- C3 at the first example document, whose third worker has an unknown status. -/
theorem FetchMetrics_counters_le_workers_witness :
    Delivers (worldServing sampleDocument) unixPlugin sampleDocument ∧
      Decode sampleDocument = .ok sampleStats ∧
      ∃ m busy idle cheap pause,
        (FetchMetrics (worldServing sampleDocument) unixPlugin).stat = some m ∧
        m "busy" = some (.fin busy) ∧ m "idle" = some (.fin idle) ∧
        m "cheap" = some (.fin cheap) ∧ m "pause" = some (.fin pause) ∧
        busy + idle + cheap + pause ≤ sampleStats.Workers.length ∧
        (sampleStats.Workers.length ≤ 2 ^ 53 →
          (busy + idle + cheap + pause = sampleStats.Workers.length ↔
            ∀ x ∈ sampleStats.Workers, x.Status = "idle" ∨ x.Status = "busy" ∨
              x.Status = "cheap" ∨ x.Status = "pause")) :=
  ⟨Or.inl ⟨rfl, rfl⟩, rfl,
    FetchMetrics_counters_le_workers (worldServing sampleDocument) unixPlugin sampleDocument
      sampleStats (Or.inl ⟨rfl, rfl⟩) rfl⟩

/-! ## Claims on the shape of the result -/

/-- C4: whenever `FetchMetrics` succeeds, the keys of the returned map are exactly
queue, busy, idle, cheap, pause, requests; and when the document is an object
whose workers list is missing or empty the five worker values are 0.0, when its
`listen_queue` is missing `queue` is 0.0. -/
theorem FetchMetrics_key_set (w : World) (p : UWSGIVassalPlugin)
    (hok : (FetchMetrics w p).err = none) :
    ∃ m, (FetchMetrics w p).stat = some m ∧ (∀ k, m k ≠ none ↔ k ∈ snapshotKeys) ∧
      ∀ o, Delivers w p (.value (.obj o)) →
        ((o.workers = none ∨ o.workers = some (.arr [])) →
          m "busy" = some Float64.zero ∧ m "idle" = some Float64.zero ∧
          m "cheap" = some Float64.zero ∧ m "pause" = some Float64.zero ∧
          m "requests" = some Float64.zero) ∧
        (o.listen_queue = none → m "queue" = some Float64.zero) := by
  obtain ⟨body, s, hb, hd, hs⟩ := FetchMetrics_success w p hok
  refine ⟨snapshotOf s, hs, snapshotOf_keys s, ?_⟩
  intro o ho
  have hbody := Delivers_unique w p _ _ hb ho
  subst hbody
  simp only [Decode] at hd
  constructor
  · intro hw
    have hws : decodeWorkers o.workers = .ok [] := by
      rcases hw with hw | hw <;> rw [hw] <;> rfl
    rw [hws] at hd
    cases hq : decodeMember 0 decodeUInt64 o.listen_queue with
    | error e => rw [hq] at hd; cases hd
    | ok q =>
      rw [hq] at hd
      cases hd
      simp [snapshotOf, workersWithStatus, accumulatedRequests, Float64.zero]
  · intro hq
    rw [hq] at hd
    cases hw : decodeWorkers o.workers with
    | error e => rw [hw] at hd; cases hd
    | ok ws =>
      rw [hw] at hd
      cases hd
      simp only [snapshotOf, if_true]
      rfl

/-- C4 at the document `{}`, an object with neither member, served over HTTP. -/
theorem FetchMetrics_key_set_witness :
    (FetchMetrics (worldServing (.value (.obj ⟨none, none⟩))) httpPlugin).err = none ∧
      ∃ m, (FetchMetrics (worldServing (.value (.obj ⟨none, none⟩))) httpPlugin).stat = some m ∧
        (∀ k, m k ≠ none ↔ k ∈ snapshotKeys) ∧
        ∀ o, Delivers (worldServing (.value (.obj ⟨none, none⟩))) httpPlugin (.value (.obj o)) →
          ((o.workers = none ∨ o.workers = some (.arr [])) →
            m "busy" = some Float64.zero ∧ m "idle" = some Float64.zero ∧
            m "cheap" = some Float64.zero ∧ m "pause" = some Float64.zero ∧
            m "requests" = some Float64.zero) ∧
          (o.listen_queue = none → m "queue" = some Float64.zero) :=
  ⟨rfl, FetchMetrics_key_set (worldServing (.value (.obj ⟨none, none⟩))) httpPlugin rfl⟩

/-- C5, as stated, fails because float64 addition rounds: the workers with
`requests` 9007199254740992, 1, 1 give the total 9007199254740992, and the same
workers in the order 1, 1, 9007199254740992 give 9007199254740994. -/
theorem FetchMetrics_order_matters :
    Decode (document 0 [(9007199254740992, "idle"), (1, "idle"), (1, "idle")]) =
        .ok ⟨0, [⟨9007199254740992, "idle"⟩, ⟨1, "idle"⟩, ⟨1, "idle"⟩]⟩ ∧
      Decode (document 0 [(1, "idle"), (1, "idle"), (9007199254740992, "idle")]) =
        .ok ⟨0, [⟨1, "idle"⟩, ⟨1, "idle"⟩, ⟨9007199254740992, "idle"⟩]⟩ ∧
      List.Perm [(⟨1, "idle"⟩ : UWSGIWorker), ⟨1, "idle"⟩, ⟨9007199254740992, "idle"⟩]
        [⟨9007199254740992, "idle"⟩, ⟨1, "idle"⟩, ⟨1, "idle"⟩] ∧
      (FetchMetrics
          (worldServing (document 0 [(9007199254740992, "idle"), (1, "idle"), (1, "idle")]))
          unixPlugin).stat.map (fun m => m "requests") =
        some (some (.fin 9007199254740992)) ∧
      (FetchMetrics
          (worldServing (document 0 [(1, "idle"), (1, "idle"), (9007199254740992, "idle")]))
          unixPlugin).stat.map (fun m => m "requests") =
        some (some (.fin 9007199254740994)) :=
  ⟨rfl, rfl, by decide, by decide, by decide⟩

/-- C5, amended: for every status document and every permutation of its workers
sequence, `FetchMetrics` returns a snapshot with the same `queue` and the same
four counters as for the original order, and, whenever the exact sum of the
`requests` fields is at most `2 ^ 53`, the same `requests` total, hence the same
snapshot. -/
theorem FetchMetrics_permutation (w w' : World) (p p' : UWSGIVassalPlugin) (body body' : Body)
    (s s' : UWSGIStats) (h : Delivers w p body) (hd : Decode body = .ok s)
    (h' : Delivers w' p' body') (hd' : Decode body' = .ok s')
    (hq : s'.ListenQueue = s.ListenQueue) (hperm : s'.Workers.Perm s.Workers) :
    ∃ m m', (FetchMetrics w p).stat = some m ∧ (FetchMetrics w' p').stat = some m' ∧
      (∀ k, k ≠ "requests" → m' k = m k) ∧
      (totalRequests s.Workers ≤ 2 ^ 53 → m' = m) := by
  have hcount : ∀ t, workersWithStatus t s'.Workers = workersWithStatus t s.Workers :=
    fun t => hperm.countP_eq _
  have hsum : totalRequests s'.Workers = totalRequests s.Workers :=
    (hperm.map _).sum_eq
  refine ⟨snapshotOf s, snapshotOf s', (FetchMetrics_ok w p body s h hd).1,
    (FetchMetrics_ok w' p' body' s' h' hd').1, ?_, ?_⟩
  · intro k hk
    simp only [snapshotOf, hq, hcount, if_neg hk]
  · intro hle
    funext k
    simp only [snapshotOf, hq, hcount, accumulatedRequests_exact _ hle,
      accumulatedRequests_exact _ (hsum ▸ hle), hsum]

/-- C5, amended, at the first example document and its reversal. -/
theorem FetchMetrics_permutation_witness :
    Delivers (worldServing sampleDocument) unixPlugin sampleDocument ∧
      Decode sampleDocument = .ok sampleStats ∧
      Delivers (worldServing (document 2 [(0, "unknown"), (5, "busy"), (10, "idle")])) httpPlugin
        (document 2 [(0, "unknown"), (5, "busy"), (10, "idle")]) ∧
      Decode (document 2 [(0, "unknown"), (5, "busy"), (10, "idle")]) =
        .ok ⟨2, [⟨0, "unknown"⟩, ⟨5, "busy"⟩, ⟨10, "idle"⟩]⟩ ∧
      ∃ m m', (FetchMetrics (worldServing sampleDocument) unixPlugin).stat = some m ∧
        (FetchMetrics (worldServing (document 2 [(0, "unknown"), (5, "busy"), (10, "idle")]))
          httpPlugin).stat = some m' ∧
        (∀ k, k ≠ "requests" → m' k = m k) ∧
        (totalRequests sampleStats.Workers ≤ 2 ^ 53 → m' = m) :=
  ⟨Or.inl ⟨rfl, rfl⟩, rfl, Or.inr ⟨rfl, rfl, rfl⟩, rfl,
    FetchMetrics_permutation (worldServing sampleDocument)
      (worldServing (document 2 [(0, "unknown"), (5, "busy"), (10, "idle")])) unixPlugin
      httpPlugin sampleDocument (document 2 [(0, "unknown"), (5, "busy"), (10, "idle")])
      sampleStats ⟨2, [⟨0, "unknown"⟩, ⟨5, "busy"⟩, ⟨10, "idle"⟩]⟩
      (Or.inl ⟨rfl, rfl⟩) rfl (Or.inr ⟨rfl, rfl, rfl⟩) rfl rfl (by decide)⟩

/-- C6: for every Socket string that starts with neither "unix://" nor "http://"
(the empty string included), `FetchMetrics` returns the configuration error and
no map, and it opens no connection: neither a dial nor an HTTP request is in its
trace. -/
theorem FetchMetrics_unrecognised_socket (w : World) (p : UWSGIVassalPlugin)
    (hu : HasPrefix p.Socket "unix://" = false) (hh : HasPrefix p.Socket "http://" = false) :
    (FetchMetrics w p).stat = none ∧
      (FetchMetrics w p).err = some (.errorsNew socketErrorMessage) ∧
      (FetchMetrics w p).trace = [] := by
  simp [FetchMetrics, hu, hh]

/-- C6 at the empty Socket string, in a world where every connection would
succeed. -/
theorem FetchMetrics_unrecognised_socket_witness :
    HasPrefix (pluginOn "").Socket "unix://" = false ∧
      HasPrefix (pluginOn "").Socket "http://" = false ∧
      (FetchMetrics (worldServing sampleDocument) (pluginOn "")).stat = none ∧
      (FetchMetrics (worldServing sampleDocument) (pluginOn "")).err =
        some (.errorsNew socketErrorMessage) ∧
      (FetchMetrics (worldServing sampleDocument) (pluginOn "")).trace = [] :=
  ⟨rfl, rfl, FetchMetrics_unrecognised_socket (worldServing sampleDocument) (pluginOn "") rfl rfl⟩

/-! ## Claims on decode failures and on the examples -/

/-- C7, as stated, fails on two kinds of body.  A top-level `null` is not an
object, and `encoding/json` decodes it into a struct without touching it and
without error: `FetchMetrics` then returns no error and the snapshot with all
six values 0.0.  And a body that is malformed after its first complete value,
here the second example document followed by `<html>`, is accepted as well: the
decoder stops after the 31 bytes of the object and never reads the rest. -/
theorem FetchMetrics_top_level_null :
    Delivers (worldServing (.value .null)) unixPlugin (.value .null) ∧
      (FetchMetrics (worldServing (.value .null)) unixPlugin).err = none ∧
      (FetchMetrics (worldServing (.value .null)) unixPlugin).stat.map
          (fun m => snapshotKeys.map m) =
        some [some (.fin 0), some (.fin 0), some (.fin 0), some (.fin 0), some (.fin 0),
          some (.fin 0)] ∧
      Body.ofStream "null".toList ⟨none, none⟩ = .value .null ∧
      trailingStream.length = 37 ∧ readValue trailingStream = .ok 31 ∧
      Body.ofStream trailingStream trailingMembers = .value (.obj trailingMembers) ∧
      (FetchMetrics (worldServing (Body.ofStream trailingStream trailingMembers))
        httpPlugin).err = none ∧
      (FetchMetrics (worldServing (Body.ofStream trailingStream trailingMembers))
          httpPlugin).stat.map (fun m => snapshotKeys.map m) =
        some [some (.fin 0), some (.fin 0), some (.fin 0), some (.fin 0), some (.fin 0),
          some (.fin 0)] :=
  ⟨Or.inl ⟨rfl, rfl⟩, rfl, by decide, rfl, rfl, rfl, rfl, rfl, by decide⟩

/-- C7, amended: for every response body in which the scanner meets an invalid
byte or the end of the stream before the first JSON value is complete (malformed
JSON, a truncated or empty stream), or whose first byte after leading spaces
begins neither an object nor `null` (a top-level array, string, number or
boolean, or text that is no JSON at all), `FetchMetrics` returns the decode
error and a nil map; when the first value is complete and is an array, a string,
a number or a boolean the error is the type error; and whenever the decoder
reports an error `FetchMetrics` returns that error and a nil map, never a map
alongside an error.  (A top-level `null` decodes without error, and what follows
the first complete value is not read.) -/
theorem FetchMetrics_decode_failure (w : World) (p : UWSGIVassalPlugin) (body : Body)
    (h : Delivers w p body) :
    (∀ stream members, body = Body.ofStream stream members →
        (∀ e, readValue stream = .error e →
          (FetchMetrics w p).stat = none ∧ (FetchMetrics w p).err = some e) ∧
        (∀ full n, readValue full = .ok n → stream <+: full → stream.length < n →
          (FetchMetrics w p).stat = none ∧ ∃ e, (FetchMetrics w p).err = some e) ∧
        ((stream.dropWhile isSpace).head? ≠ some '{' →
          (stream.dropWhile isSpace).head? ≠ some 'n' →
          (FetchMetrics w p).stat = none ∧ ∃ e, (FetchMetrics w p).err = some e)) ∧
      (∀ j, body = .value j → j ≠ .null → (∀ o, j ≠ .obj o) →
        (FetchMetrics w p).stat = none ∧ (FetchMetrics w p).err = some .unmarshalType) ∧
      (∀ e, Decode body = .error e →
        (FetchMetrics w p).stat = none ∧ (FetchMetrics w p).err = some e) ∧
      ((FetchMetrics w p).err ≠ none → (FetchMetrics w p).stat = none) := by
  refine ⟨?_, ?_, ?_, FetchMetrics_error_no_stat w p⟩
  · intro stream members hb
    subst hb
    refine ⟨?_, ?_, ?_⟩
    · intro e he
      apply FetchMetrics_decode_error w p _ e h
      unfold Body.ofStream
      rw [he]
      rfl
    · intro full n hr hpre hlen
      rw [List.prefix_iff_eq_take] at hpre
      obtain ⟨e, he⟩ := Decode_ofStream_truncated full n stream.length members hr hlen
      rw [← hpre] at he
      obtain ⟨h1, h2⟩ := FetchMetrics_decode_error w p _ e h he
      exact ⟨h1, e, h2⟩
    · intro c1 c2
      obtain ⟨e, he⟩ := Decode_ofStream_other stream members c1 c2
      obtain ⟨h1, h2⟩ := FetchMetrics_decode_error w p _ e h he
      exact ⟨h1, e, h2⟩
  · intro j hj hnull hobj
    apply FetchMetrics_decode_error w p body _ h
    rw [hj]
    exact Decode_value_error j hnull hobj
  · intro e he
    exact FetchMetrics_decode_error w p body e h he

set_option maxRecDepth 8000 in
/-- C7, amended, at the first example document cut after 50 of its 127 bytes. -/
theorem FetchMetrics_decode_failure_witness :
    Delivers (worldServing (Body.ofStream truncatedStream ⟨none, none⟩)) httpPlugin
        (Body.ofStream truncatedStream ⟨none, none⟩) ∧
      readValue sampleStream = .ok 127 ∧ truncatedStream <+: sampleStream ∧
      truncatedStream.length < 127 ∧
      readValue truncatedStream = .error .syntaxError ∧
      ((∀ stream members, Body.ofStream truncatedStream ⟨none, none⟩ =
            Body.ofStream stream members →
          (∀ e, readValue stream = .error e →
            (FetchMetrics (worldServing (Body.ofStream truncatedStream ⟨none, none⟩))
              httpPlugin).stat = none ∧
            (FetchMetrics (worldServing (Body.ofStream truncatedStream ⟨none, none⟩))
              httpPlugin).err = some e) ∧
          (∀ full n, readValue full = .ok n → stream <+: full → stream.length < n →
            (FetchMetrics (worldServing (Body.ofStream truncatedStream ⟨none, none⟩))
              httpPlugin).stat = none ∧
            ∃ e, (FetchMetrics (worldServing (Body.ofStream truncatedStream ⟨none, none⟩))
              httpPlugin).err = some e) ∧
          ((stream.dropWhile isSpace).head? ≠ some '{' →
            (stream.dropWhile isSpace).head? ≠ some 'n' →
            (FetchMetrics (worldServing (Body.ofStream truncatedStream ⟨none, none⟩))
              httpPlugin).stat = none ∧
            ∃ e, (FetchMetrics (worldServing (Body.ofStream truncatedStream ⟨none, none⟩))
              httpPlugin).err = some e)) ∧
        (∀ j, Body.ofStream truncatedStream ⟨none, none⟩ = .value j → j ≠ .null →
          (∀ o, j ≠ .obj o) →
          (FetchMetrics (worldServing (Body.ofStream truncatedStream ⟨none, none⟩))
            httpPlugin).stat = none ∧
          (FetchMetrics (worldServing (Body.ofStream truncatedStream ⟨none, none⟩))
            httpPlugin).err = some .unmarshalType) ∧
        (∀ e, Decode (Body.ofStream truncatedStream ⟨none, none⟩) = .error e →
          (FetchMetrics (worldServing (Body.ofStream truncatedStream ⟨none, none⟩))
            httpPlugin).stat = none ∧
          (FetchMetrics (worldServing (Body.ofStream truncatedStream ⟨none, none⟩))
            httpPlugin).err = some e) ∧
        ((FetchMetrics (worldServing (Body.ofStream truncatedStream ⟨none, none⟩))
            httpPlugin).err ≠ none →
          (FetchMetrics (worldServing (Body.ofStream truncatedStream ⟨none, none⟩))
            httpPlugin).stat = none)) :=
  ⟨Or.inr ⟨rfl, rfl, rfl⟩, rfl, List.take_prefix 50 sampleStream, by decide, rfl,
    FetchMetrics_decode_failure (worldServing (Body.ofStream truncatedStream ⟨none, none⟩))
      httpPlugin (Body.ofStream truncatedStream ⟨none, none⟩) (Or.inr ⟨rfl, rfl, rfl⟩)⟩

/-- C8: for the document with `listen_queue` 2 and the workers (10, idle),
(5, busy), (0, unknown), `FetchMetrics` returns no error and exactly the snapshot
queue 2.0, idle 1.0, busy 1.0, cheap 0.0, pause 0.0, requests 15.0; for the
document with `listen_queue` 0 and no workers it returns the snapshot with all
six values 0.0. -/
theorem FetchMetrics_examples (w w' : World) (p p' : UWSGIVassalPlugin)
    (h : Delivers w p sampleDocument) (h' : Delivers w' p' emptyDocument) :
    ((FetchMetrics w p).err = none ∧
        (FetchMetrics w p).stat = some ((((((Stat.empty.set "queue" (.fin 2)).set "idle"
          (.fin 1)).set "busy" (.fin 1)).set "cheap" (.fin 0)).set "pause" (.fin 0)).set
          "requests" (.fin 15))) ∧
      ((FetchMetrics w' p').err = none ∧
        (FetchMetrics w' p').stat = some ((((((Stat.empty.set "queue" (.fin 0)).set "idle"
          (.fin 0)).set "busy" (.fin 0)).set "cheap" (.fin 0)).set "pause" (.fin 0)).set
          "requests" (.fin 0))) := by
  have e1 := FetchMetrics_ok w p sampleDocument sampleStats h rfl
  have e2 := FetchMetrics_ok w' p' emptyDocument ⟨0, []⟩ h' rfl
  refine ⟨⟨e1.2, ?_⟩, ⟨e2.2, ?_⟩⟩
  · rw [e1.1]
    congr 1
    funext k
    simp only [snapshotOf, Stat.set, Stat.empty]
    by_cases hq : k = "queue"
    · subst hq; decide
    by_cases hr : k = "requests"
    · subst hr; decide
    by_cases hi : k = "idle"
    · subst hi; decide
    by_cases hb : k = "busy"
    · subst hb; decide
    by_cases hc : k = "cheap"
    · subst hc; decide
    by_cases hp : k = "pause"
    · subst hp; decide
    simp [hq, hr, hi, hb, hc, hp]
  · rw [e2.1]
    congr 1
    funext k
    simp only [snapshotOf, Stat.set, Stat.empty]
    by_cases hq : k = "queue"
    · subst hq; decide
    by_cases hr : k = "requests"
    · subst hr; decide
    by_cases hi : k = "idle"
    · subst hi; decide
    by_cases hb : k = "busy"
    · subst hb; decide
    by_cases hc : k = "cheap"
    · subst hc; decide
    by_cases hp : k = "pause"
    · subst hp; decide
    simp [hq, hr, hi, hb, hc, hp]

/-- C8 with the first document served over a unix socket and the second over
HTTP. -/
theorem FetchMetrics_examples_witness :
    Delivers (worldServing sampleDocument) unixPlugin sampleDocument ∧
      Delivers (worldServing emptyDocument) httpPlugin emptyDocument ∧
      ((FetchMetrics (worldServing sampleDocument) unixPlugin).err = none ∧
        (FetchMetrics (worldServing sampleDocument) unixPlugin).stat =
          some ((((((Stat.empty.set "queue" (.fin 2)).set "idle" (.fin 1)).set "busy"
            (.fin 1)).set "cheap" (.fin 0)).set "pause" (.fin 0)).set "requests" (.fin 15))) ∧
      ((FetchMetrics (worldServing emptyDocument) httpPlugin).err = none ∧
        (FetchMetrics (worldServing emptyDocument) httpPlugin).stat =
          some ((((((Stat.empty.set "queue" (.fin 0)).set "idle" (.fin 0)).set "busy"
            (.fin 0)).set "cheap" (.fin 0)).set "pause" (.fin 0)).set "requests" (.fin 0))) :=
  ⟨Or.inl ⟨rfl, rfl⟩, Or.inr ⟨rfl, rfl, rfl⟩,
    FetchMetrics_examples (worldServing sampleDocument) (worldServing emptyDocument) unixPlugin
      httpPlugin (Or.inl ⟨rfl, rfl⟩) (Or.inr ⟨rfl, rfl, rfl⟩)⟩

/-! ## Claims on the graph definition -/

/-- C9: for every plugin prefix P, `GraphDefinition` returns exactly three groups,
under the distinct keys P.queue, P.workers and P.req: the queue group has unit
integer and the single series queue labelled "Requests", neither cumulative-diff
nor stacked; the workers group has unit integer and exactly the series busy,
idle, cheap, pause labelled "Busy", "Idle", "Cheap", "Pause", all stacked and
none cumulative-diff; the req group has unit float and the single series requests
labelled "Requests" with cumulative-diff.  Every series name is a snapshot key
and each snapshot key is a series of exactly one group. -/
theorem GraphDefinition_groups (Title : String → String) (p : UWSGIVassalPlugin) :
    ∃ queue workers req : Graphs,
      GraphDefinition Title p =
        [(p.Prefix ++ ".queue", queue), (p.Prefix ++ ".workers", workers),
          (p.Prefix ++ ".req", req)] ∧
      [p.Prefix ++ ".queue", p.Prefix ++ ".workers", p.Prefix ++ ".req"].Nodup ∧
      queue.Unit = "integer" ∧
      queue.Metrics = [{ Name := "queue", Label := "Requests", Diff := false, Stacked := false }] ∧
      workers.Unit = "integer" ∧
      workers.Metrics =
        [ { Name := "busy", Label := "Busy", Diff := false, Stacked := true },
          { Name := "idle", Label := "Idle", Diff := false, Stacked := true },
          { Name := "cheap", Label := "Cheap", Diff := false, Stacked := true },
          { Name := "pause", Label := "Pause", Diff := false, Stacked := true } ] ∧
      req.Unit = "float" ∧
      req.Metrics = [{ Name := "requests", Label := "Requests", Diff := true, Stacked := false }] ∧
      (∀ g ∈ [queue, workers, req], ∀ x ∈ g.Metrics, x.Name ∈ snapshotKeys) ∧
      ∀ k ∈ snapshotKeys,
        ([queue, workers, req].filter
          (fun g => decide (k ∈ g.Metrics.map (fun x => x.Name)))).length = 1 ∧
        ((queue.Metrics ++ workers.Metrics ++ req.Metrics).map (fun x => x.Name)).count k = 1 := by
  refine ⟨_, _, _, rfl, ?_, rfl, rfl, rfl, rfl, rfl, rfl, ?_, ?_⟩
  rotate_left
  · simp [snapshotKeys]
  · intro k hk
    simp only [snapshotKeys, List.mem_cons, List.mem_singleton, List.not_mem_nil, or_false] at hk
    rcases hk with hk | hk | hk | hk | hk | hk <;> subst hk <;>
      simp [List.filter_cons, List.count_cons]
  have h1 : p.Prefix ++ ".queue" ≠ p.Prefix ++ ".workers" :=
    fun h => absurd (append_left_cancel _ _ _ h) (by decide)
  have h2 : p.Prefix ++ ".queue" ≠ p.Prefix ++ ".req" :=
    fun h => absurd (append_left_cancel _ _ _ h) (by decide)
  have h3 : p.Prefix ++ ".workers" ≠ p.Prefix ++ ".req" :=
    fun h => absurd (append_left_cancel _ _ _ h) (by decide)
  simp [h1, h2, h3]

/-- C10 fails on the code at a plugin whose Prefix is empty: `MetricKeyPrefix`
answers "uWSGI", and the keys of `GraphDefinition` are ".queue", ".workers" and
".req", none of which starts with "uWSGI". -/
theorem GraphDefinition_ignores_default (Title : String → String) :
    MetricKeyPrefix { Socket := "unix:///run/uwsgi.sock", Prefix := "", LabelPrefix := "" } =
        "uWSGI" ∧
      (GraphDefinition Title
          { Socket := "unix:///run/uwsgi.sock", Prefix := "", LabelPrefix := "" }).map Prod.fst =
        [".queue", ".workers", ".req"] ∧
      ∀ k ∈ [".queue", ".workers", ".req"], HasPrefix k "uWSGI" = false :=
  ⟨rfl, rfl, by decide⟩

/-! ## Further properties -/

/-- With a non-empty Prefix, `MetricKeyPrefix` returns it and every key of
`GraphDefinition` is `MetricKeyPrefix` followed by ".queue", ".workers" or
".req". -/
theorem GraphDefinition_keys_of_nonempty (Title : String → String) (p : UWSGIVassalPlugin)
    (h : p.Prefix ≠ "") :
    MetricKeyPrefix p = p.Prefix ∧
      (GraphDefinition Title p).map Prod.fst =
        [MetricKeyPrefix p ++ ".queue", MetricKeyPrefix p ++ ".workers",
          MetricKeyPrefix p ++ ".req"] := by
  have hp : MetricKeyPrefix p = p.Prefix := by simp [MetricKeyPrefix, h]
  exact ⟨hp, by rw [hp]; rfl⟩

/-- The keys under the default prefix. -/
theorem GraphDefinition_keys_of_nonempty_witness :
    unixPlugin.Prefix ≠ "" ∧ MetricKeyPrefix unixPlugin = unixPlugin.Prefix ∧
      (GraphDefinition id unixPlugin).map Prod.fst =
        [MetricKeyPrefix unixPlugin ++ ".queue", MetricKeyPrefix unixPlugin ++ ".workers",
          MetricKeyPrefix unixPlugin ++ ".req"] :=
  ⟨by decide, GraphDefinition_keys_of_nonempty id unixPlugin (by decide)⟩

/-- A failed dial or a failed HTTP request is returned as it is, with a nil map;
the only connection attempt is that one, made on the socket path without its
"unix://" prefix or on the whole URL, and nothing is closed. -/
theorem FetchMetrics_transport_error (w : World) (p : UWSGIVassalPlugin) (e : Error)
    (h : (HasPrefix p.Socket "unix://" = true ∧
          w.Dial "unix" (TrimPrefix p.Socket "unix://") = .error e) ∨
        (HasPrefix p.Socket "unix://" = false ∧ HasPrefix p.Socket "http://" = true ∧
          w.Get p.Socket = .error e)) :
    (FetchMetrics w p).stat = none ∧ (FetchMetrics w p).err = some e ∧
      ((FetchMetrics w p).trace = [.dial "unix" (TrimPrefix p.Socket "unix://")] ∨
        (FetchMetrics w p).trace = [.get p.Socket]) := by
  rcases h with ⟨h1, h2⟩ | ⟨h1, h2, h3⟩
  · simp [FetchMetrics, h1, h2]
  · simp [FetchMetrics, h1, h2, h3]

/-- A dial refused with error 111 on the socket `unix:///run/uwsgi.sock`. -/
theorem FetchMetrics_transport_error_witness :
    (FetchMetrics ⟨fun _ _ => .error (.transport 111), fun _ => .error (.transport 111)⟩
        unixPlugin).stat = none ∧
      (FetchMetrics ⟨fun _ _ => .error (.transport 111), fun _ => .error (.transport 111)⟩
        unixPlugin).err = some (.transport 111) ∧
      ((FetchMetrics ⟨fun _ _ => .error (.transport 111), fun _ => .error (.transport 111)⟩
          unixPlugin).trace = [.dial "unix" (TrimPrefix unixPlugin.Socket "unix://")] ∨
        (FetchMetrics ⟨fun _ _ => .error (.transport 111), fun _ => .error (.transport 111)⟩
          unixPlugin).trace = [.get unixPlugin.Socket]) :=
  FetchMetrics_transport_error
    ⟨fun _ _ => .error (.transport 111), fun _ => .error (.transport 111)⟩ unixPlugin
    (.transport 111) (Or.inl ⟨rfl, rfl⟩)

set_option maxRecDepth 8000 in
/-- The 127 bytes of the first example document are one complete JSON value,
an object; with its members bound to the fields it is the document
`sampleDocument`, and `FetchMetrics` returns no error for it. -/
theorem FetchMetrics_sample_stream :
    sampleStream.length = 127 ∧ readValue sampleStream = .ok 127 ∧
      Body.ofStream sampleStream
          ⟨some (.nat 2), some (.arr
            [.obj ⟨some (.nat 10), some (.str "idle")⟩, .obj ⟨some (.nat 5), some (.str "busy")⟩,
              .obj ⟨some (.nat 0), some (.str "unknown")⟩])⟩ = sampleDocument ∧
      (FetchMetrics (worldServing (Body.ofStream sampleStream
          ⟨some (.nat 2), some (.arr
            [.obj ⟨some (.nat 10), some (.str "idle")⟩, .obj ⟨some (.nat 5), some (.str "busy")⟩,
              .obj ⟨some (.nat 0), some (.str "unknown")⟩])⟩)) unixPlugin).err = none :=
  ⟨rfl, rfl, rfl, rfl⟩

set_option maxRecDepth 8000 in
/-- The document of the comment at lines 21 to 116 of the source is not JSON:
its `workers` array is never closed, the scanner rejects the closing brace of
line 116, and `FetchMetrics`, served this text, returns the syntax error and a
nil map. -/
theorem FetchMetrics_comment_document :
    commentStream.length = 1710 ∧ readValue commentStream = .error .syntaxError ∧
      (FetchMetrics (worldServing (Body.ofStream commentStream ⟨none, none⟩)) unixPlugin).stat =
        none ∧
      (FetchMetrics (worldServing (Body.ofStream commentStream ⟨none, none⟩)) unixPlugin).err =
        some .syntaxError := by
  have h1 : scanPrefix Scanner.reset commentLines1 = some ⟨.stateBeginString, [.parseObjectKey]⟩ := rfl
  have h2 : scanPrefix (⟨.stateBeginString, [.parseObjectKey]⟩) commentLines2 = some ⟨.stateBeginString, [.parseObjectKey, .parseArrayValue, .parseObjectValue]⟩ := rfl
  have h3 : scanPrefix (⟨.stateBeginString, [.parseObjectKey, .parseArrayValue, .parseObjectValue]⟩) commentLines3 = some ⟨.stateBeginStringOrEmpty, [.parseObjectKey, .parseArrayValue, .parseObjectValue, .parseArrayValue, .parseObjectValue]⟩ := rfl
  have h4 : scanPrefix (⟨.stateBeginStringOrEmpty, [.parseObjectKey, .parseArrayValue, .parseObjectValue, .parseArrayValue, .parseObjectValue]⟩) commentLines4 = some ⟨.stateBeginStringOrEmpty, [.parseObjectKey, .parseArrayValue, .parseObjectValue]⟩ := rfl
  have h5 : scanPrefix (⟨.stateBeginStringOrEmpty, [.parseObjectKey, .parseArrayValue, .parseObjectValue]⟩) commentLines5 = some ⟨.stateBeginString, [.parseObjectKey, .parseArrayValue, .parseObjectValue]⟩ := rfl
  have h6 : scanPrefix (⟨.stateBeginString, [.parseObjectKey, .parseArrayValue, .parseObjectValue]⟩) commentLines6 = some ⟨.stateBeginString, [.parseObjectKey, .parseArrayValue, .parseObjectValue, .parseArrayValue, .parseObjectValue]⟩ := rfl
  have h7 : scanPrefix (⟨.stateBeginString, [.parseObjectKey, .parseArrayValue, .parseObjectValue, .parseArrayValue, .parseObjectValue]⟩) commentLines7 = some ⟨.stateBeginString, [.parseObjectKey, .parseArrayValue, .parseObjectValue]⟩ := rfl
  have h8 : scanPrefix (⟨.stateBeginString, [.parseObjectKey, .parseArrayValue, .parseObjectValue]⟩) commentLines8 = some ⟨.stateBeginString, [.parseObjectKey, .parseArrayValue, .parseObjectValue]⟩ := rfl
  have h9 : scanPrefix (⟨.stateBeginString, [.parseObjectKey, .parseArrayValue, .parseObjectValue]⟩) commentLines9 = some ⟨.stateEndValue, [.parseObjectValue, .parseArrayValue, .parseObjectValue, .parseArrayValue, .parseObjectValue]⟩ := rfl
  have h10 : scanPrefix (⟨.stateEndValue, [.parseObjectValue, .parseArrayValue, .parseObjectValue, .parseArrayValue, .parseObjectValue]⟩) commentLines10 = some ⟨.stateBeginString, [.parseObjectKey, .parseArrayValue, .parseObjectValue]⟩ := rfl
  have h11 : scanPrefix (⟨.stateBeginString, [.parseObjectKey, .parseArrayValue, .parseObjectValue]⟩) commentLines11 = some ⟨.stateBeginString, [.parseObjectKey, .parseArrayValue, .parseObjectValue, .parseArrayValue, .parseObjectValue]⟩ := rfl
  have h12 : readLoop (⟨.stateBeginString, [.parseObjectKey, .parseArrayValue, .parseObjectValue, .parseArrayValue, .parseObjectValue]⟩) commentLines12 = .error .syntaxError := rfl
  have hp : scanPrefix Scanner.reset
      (commentLines1 ++ commentLines2 ++ commentLines3 ++ commentLines4 ++ commentLines5 ++ commentLines6 ++
        commentLines7 ++ commentLines8 ++ commentLines9 ++ commentLines10 ++ commentLines11) =
      some ⟨.stateBeginString, [.parseObjectKey, .parseArrayValue, .parseObjectValue, .parseArrayValue, .parseObjectValue]⟩ := by
    simp only [scanPrefix_append, h1, h2, h3, h4, h5, h6, h7, h8, h9, h10, h11, Option.bind]
  have hr : readValue commentStream = .error .syntaxError :=
    readLoop_append_error _ commentLines12 _ _ _ hp h12
  have hb : Body.ofStream commentStream ⟨none, none⟩ = .broken .syntaxError := by
    unfold Body.ofStream
    rw [hr]
  have hf := FetchMetrics_decode_error (worldServing (Body.ofStream commentStream ⟨none, none⟩))
    unixPlugin _ .syntaxError (Or.inl ⟨rfl, rfl⟩) (by rw [hb]; rfl)
  have l1 : commentLines1.length = 135 := rfl
  have l2 : commentLines2.length = 150 := rfl
  have l3 : commentLines3.length = 150 := rfl
  have l4 : commentLines4.length = 137 := rfl
  have l5 : commentLines5.length = 144 := rfl
  have l6 : commentLines6.length = 160 := rfl
  have l7 : commentLines7.length = 126 := rfl
  have l8 : commentLines8.length = 161 := rfl
  have l9 : commentLines9.length = 155 := rfl
  have l10 : commentLines10.length = 121 := rfl
  have l11 : commentLines11.length = 151 := rfl
  have l12 : commentLines12.length = 120 := rfl
  refine ⟨?_, hr, hf.1, hf.2⟩
  simp only [commentStream, List.length_append, l1, l2, l3, l4, l5, l6, l7, l8, l9, l10, l11, l12]

end mpuwsgivassal
